import Mathlib

/-
Verification development for the Infinitspace data-warehouse sync engine.

Shallow embedding of the incremental synchronization core:
  - shared/nexudus/client.py          (paginated, retrying HTTP client)
  - shared/azure_clients/run_tracker.py
  - shared/azure_clients/bronze_writer.py
  - shared/azure_clients/silver_writer_products.py (and the identical
    latest-per-id bronze load used by silver_write_locations.py)
  - shared/nexudus/transformers/products.py, locations.py
  - functions/bronze_nexudus.py       (orchestrator, resource discovery)

Python dynamic values are embedded as the inductive `Val`; `None` is
`Val.vnull`.  Exceptions are embedded as `Except String`.  SQL tables are
embedded as lists of typed rows, and each SQL statement as a function on
those lists following the statement text.
-/

namespace Infinitspace

/-- Dynamic value, the shape of a parsed Nexudus JSON payload and of any
Python value flowing through the pipeline.  Numbers are modelled as
integers (upstream identifiers and flags; fractional literals play no role
in any verified property). -/
inductive Val where
  | vnull
  | vbool (b : Bool)
  | vint (n : Int)
  | vstr (s : String)
  | vlist (xs : List Val)
  | vdict (fields : List (String × Val))
deriving Repr

mutual

/-- Decidable structural equality on dynamic values (Python `==` on the
JSON fragment of values; numeric cross-type comparisons such as
`True == 1` do not occur in the verified code paths). -/
def valDecEq : (a b : Val) → Decidable (a = b)
  | .vnull, .vnull => isTrue rfl
  | .vbool a, .vbool b =>
    if h : a = b then isTrue (by rw [h]) else isFalse (by intro e; injection e; contradiction)
  | .vint a, .vint b =>
    if h : a = b then isTrue (by rw [h]) else isFalse (by intro e; injection e; contradiction)
  | .vstr a, .vstr b =>
    if h : a = b then isTrue (by rw [h]) else isFalse (by intro e; injection e; contradiction)
  | .vlist xs, .vlist ys =>
    match valListDecEq xs ys with
    | isTrue h => isTrue (by rw [h])
    | isFalse h => isFalse (by intro e; injection e; contradiction)
  | .vdict xs, .vdict ys =>
    match valDictDecEq xs ys with
    | isTrue h => isTrue (by rw [h])
    | isFalse h => isFalse (by intro e; injection e; contradiction)
  | .vnull, .vbool _ => isFalse (by intro h; exact Val.noConfusion h)
  | .vnull, .vint _ => isFalse (by intro h; exact Val.noConfusion h)
  | .vnull, .vstr _ => isFalse (by intro h; exact Val.noConfusion h)
  | .vnull, .vlist _ => isFalse (by intro h; exact Val.noConfusion h)
  | .vnull, .vdict _ => isFalse (by intro h; exact Val.noConfusion h)
  | .vbool _, .vnull => isFalse (by intro h; exact Val.noConfusion h)
  | .vbool _, .vint _ => isFalse (by intro h; exact Val.noConfusion h)
  | .vbool _, .vstr _ => isFalse (by intro h; exact Val.noConfusion h)
  | .vbool _, .vlist _ => isFalse (by intro h; exact Val.noConfusion h)
  | .vbool _, .vdict _ => isFalse (by intro h; exact Val.noConfusion h)
  | .vint _, .vnull => isFalse (by intro h; exact Val.noConfusion h)
  | .vint _, .vbool _ => isFalse (by intro h; exact Val.noConfusion h)
  | .vint _, .vstr _ => isFalse (by intro h; exact Val.noConfusion h)
  | .vint _, .vlist _ => isFalse (by intro h; exact Val.noConfusion h)
  | .vint _, .vdict _ => isFalse (by intro h; exact Val.noConfusion h)
  | .vstr _, .vnull => isFalse (by intro h; exact Val.noConfusion h)
  | .vstr _, .vbool _ => isFalse (by intro h; exact Val.noConfusion h)
  | .vstr _, .vint _ => isFalse (by intro h; exact Val.noConfusion h)
  | .vstr _, .vlist _ => isFalse (by intro h; exact Val.noConfusion h)
  | .vstr _, .vdict _ => isFalse (by intro h; exact Val.noConfusion h)
  | .vlist _, .vnull => isFalse (by intro h; exact Val.noConfusion h)
  | .vlist _, .vbool _ => isFalse (by intro h; exact Val.noConfusion h)
  | .vlist _, .vint _ => isFalse (by intro h; exact Val.noConfusion h)
  | .vlist _, .vstr _ => isFalse (by intro h; exact Val.noConfusion h)
  | .vlist _, .vdict _ => isFalse (by intro h; exact Val.noConfusion h)
  | .vdict _, .vnull => isFalse (by intro h; exact Val.noConfusion h)
  | .vdict _, .vbool _ => isFalse (by intro h; exact Val.noConfusion h)
  | .vdict _, .vint _ => isFalse (by intro h; exact Val.noConfusion h)
  | .vdict _, .vstr _ => isFalse (by intro h; exact Val.noConfusion h)
  | .vdict _, .vlist _ => isFalse (by intro h; exact Val.noConfusion h)

/-- Decidable equality on lists of dynamic values. -/
def valListDecEq : (xs ys : List Val) → Decidable (xs = ys)
  | [], [] => isTrue rfl
  | [], _ :: _ => isFalse (by intro h; exact List.noConfusion h)
  | _ :: _, [] => isFalse (by intro h; exact List.noConfusion h)
  | x :: xs, y :: ys =>
    match valDecEq x y with
    | isFalse h1 => isFalse (by intro e; injection e; contradiction)
    | isTrue h1 =>
      match valListDecEq xs ys with
      | isTrue h2 => isTrue (by rw [h1, h2])
      | isFalse h2 => isFalse (by intro e; injection e; contradiction)

/-- Decidable equality on dict entry lists. -/
def valDictDecEq : (xs ys : List (String × Val)) → Decidable (xs = ys)
  | [], [] => isTrue rfl
  | [], _ :: _ => isFalse (by intro h; exact List.noConfusion h)
  | _ :: _, [] => isFalse (by intro h; exact List.noConfusion h)
  | (k, v) :: xs, (k2, v2) :: ys =>
    if hk : k = k2 then
      match valDecEq v v2 with
      | isFalse h1 => isFalse (by intro e; injection e with e1 e2; injection e1; contradiction)
      | isTrue h1 =>
        match valDictDecEq xs ys with
        | isTrue h2 => isTrue (by rw [hk, h1, h2])
        | isFalse h2 => isFalse (by intro e; injection e; contradiction)
    else isFalse (by intro e; injection e with e1 e2; injection e1; contradiction)

end

instance : DecidableEq Val := valDecEq

/-- Python truthiness of a value (`if value:`). -/
def pyTruthy : Val → Bool
  | .vnull => false
  | .vbool b => b
  | .vint n => n != 0
  | .vstr s => s != ""
  | .vlist xs => !xs.isEmpty
  | .vdict fs => !fs.isEmpty

/-- A payload is a Python dict: an association list of string keys, first
binding wins (Python dict keys are unique; lookup returns that binding). -/
abbrev Payload := List (String × Val)

/-- Dict item lookup distinguishing an absent key (`none`) from a key bound
to `None` (`some .vnull`): `raw[k]` raises exactly when this is `none`. -/
def dictGet : Payload → String → Option Val
  | [], _ => none
  | (k, v) :: rest, key => if k = key then some v else dictGet rest key

/-- Python `raw.get(k)`: `None` for an absent key. -/
def pyGet (raw : Payload) (key : String) : Val :=
  (dictGet raw key).getD .vnull

/-- Python `a or b`. -/
def pyOr (a b : Val) : Val := if pyTruthy a then a else b

/-- Python `str(value)`.  The repr of containers is abbreviated: no verified
property inspects the text of a stringified list or dict. -/
def pyToString : Val → String
  | .vnull => "None"
  | .vbool true => "True"
  | .vbool false => "False"
  | .vint n => toString n
  | .vstr s => s
  | .vlist _ => "<list>"
  | .vdict _ => "<dict>"

/-- Normalization step of `_parse_dt`: `value.replace("Z", "+00:00")`. -/
def zNormalize (s : String) : String := s.replace "Z" "+00:00"

/-- Abstraction of `datetime.fromisoformat` acceptance: the string must open
with a `YYYY-MM-DD` shape.  Only the success-or-failure split is
load-bearing downstream (failure is caught and becomes null). -/
def isoDateStart : List Char → Bool
  | y1 :: y2 :: y3 :: y4 :: c1 :: m1 :: m2 :: c2 :: d1 :: d2 :: _ =>
    y1.isDigit && y2.isDigit && y3.isDigit && y4.isDigit &&
    c1 == '-' && m1.isDigit && m2.isDigit && c2 == '-' && d1.isDigit && d2.isDigit
  | _ => false

/-- Transformer helper `_parse_dt` (identical in products.py and
locations.py): falsy input yields null; a non-string raises
`AttributeError`, which the helper catches and turns into null; a string is
Z-normalized and parsed, with parse failure yielding null. -/
def _parse_dt (v : Val) : Val :=
  if !pyTruthy v then .vnull
  else match v with
    | .vstr s => if isoDateStart (zNormalize s).toList then .vstr (zNormalize s) else .vnull
    | _ => .vnull

/-- Transformer helper `_bit`: `None` stays null, any other value is
normalized to the integers 1 or 0 by truthiness. -/
def _bit : Val → Val
  | .vnull => .vnull
  | v => if pyTruthy v then .vint 1 else .vint 0

/-- Transformer helper `_int`: `int(value)` with `TypeError`/`ValueError`
caught to null.  Python integer-literal parsing is abstracted by
`String.toInt?` on the trimmed string; only the success-or-null split is
load-bearing. -/
def _int : Val → Val
  | .vnull => .vnull
  | .vint n => .vint n
  | .vbool b => .vint (if b then 1 else 0)
  | .vstr s =>
    match s.trim.toInt? with
    | some n => .vint n
    | none => .vnull
  | _ => .vnull

/-- Transformer helper `_str`: `None` stays null, any other value is
stringified and trimmed, with the empty result collapsing to null. -/
def _str (v : Val) : Val :=
  match v with
  | .vnull => .vnull
  | v =>
    let s := (pyToString v).trim
    if s == "" then .vnull else .vstr s

/-- Character-shape check used by the model of Python `float(string)`:
optional sign, digits, at most one dot.  Abstracts the full CPython float
grammar; only the success-or-failure split reaches silver. -/
def floatBody (cs : List Char) : Bool :=
  cs.all (fun c => c.isDigit || c == '.') &&
    (cs.filter Char.isDigit).length ≥ 1 &&
    (cs.filter (fun c => c == '.')).length ≤ 1

/-- Model of Python `float(s)` acceptance for strings. -/
def floatStrOk (s : String) : Bool :=
  match s.trim.toList with
  | '-' :: rest => floatBody rest
  | '+' :: rest => floatBody rest
  | rest => floatBody rest

/-- Model of Python `float(value)`: `some` on success (the numeric value
itself is not load-bearing, so the input is kept), `none` where CPython
raises `TypeError` or `ValueError`. -/
def pyFloat? : Val → Option Val
  | .vint n => some (.vint n)
  | .vbool b => some (.vint (if b then 1 else 0))
  | .vstr s => if floatStrOk s then some (.vstr s.trim) else none
  | _ => none

/-- Loop body of `_extract_custom_size` over `CustomFields.Data`: a
non-dict item raises `AttributeError` (uncaught in the source); for the
first item named `Nexudus.FloorPlan.Size` the `Value` is float-parsed with
`TypeError`/`ValueError`/`KeyError` caught to null. -/
def customSizeScan : List Val → Except String Val
  | [] => .ok .vnull
  | item :: rest =>
    match item with
    | .vdict fields =>
      if pyGet fields "Name" == .vstr "Nexudus.FloorPlan.Size" then
        match dictGet fields "Value" with
        | none => .ok .vnull
        | some v => .ok ((pyFloat? v).getD .vnull)
      else customSizeScan rest
    | _ => .error "AttributeError"

/-- products.py `_extract_custom_size`: a non-dict `CustomFields` yields
null; a falsy `Data` iterates nothing; a truthy non-list `Data` raises
`TypeError` (uncaught in the source). -/
def _extract_custom_size (raw : Payload) : Except String Val :=
  match pyGet raw "CustomFields" with
  | .vdict custom =>
    let dataVal := pyGet custom "Data"
    if pyTruthy dataVal then
      match dataVal with
      | .vlist xs => customSizeScan xs
      | _ => .error "TypeError"
    else .ok .vnull
  | _ => .ok .vnull

/-- Tag scan helper for `_strip_html`: consume characters up to and
including the first closing angle bracket. -/
def dropTag : List Char → Option (List Char)
  | [] => none
  | c :: rest => if c == '>' then some rest else dropTag rest

/-- Fuel-indexed substitution of the regex `<[^>]+>` by a space; the fuel
is instantiated with the character count, which always suffices since each
step consumes at least one character. -/
def stripTagsFuel : Nat → List Char → List Char
  | 0, _ => []
  | _, [] => []
  | fuel + 1, '<' :: rest =>
    match rest with
    | [] => ['<']
    | c :: _ =>
      if c == '>' then '<' :: stripTagsFuel fuel rest
      else
        match dropTag rest with
        | some rest2 => ' ' :: stripTagsFuel fuel rest2
        | none => '<' :: stripTagsFuel fuel rest
  | fuel + 1, c :: rest => c :: stripTagsFuel fuel rest

/-- Substitution of HTML tags by spaces (`_HTML_TAG_RE.sub(" ", value)`). -/
def stripTags (cs : List Char) : List Char := stripTagsFuel cs.length cs

/-- Fuel-indexed collapse of whitespace runs to a single space
(`_WHITESPACE_RE.sub(" ", text)`). -/
def collapseWsFuel : Nat → List Char → List Char
  | 0, _ => []
  | _, [] => []
  | fuel + 1, c :: rest =>
    if c.isWhitespace then ' ' :: collapseWsFuel fuel (rest.dropWhile Char.isWhitespace)
    else c :: collapseWsFuel fuel rest

/-- Whitespace-run collapse at character level. -/
def collapseWs (cs : List Char) : List Char := collapseWsFuel cs.length cs

/-- Python `str.strip()` at character level. -/
def pyStripChars (cs : List Char) : List Char :=
  ((cs.dropWhile Char.isWhitespace).reverse.dropWhile Char.isWhitespace).reverse

/-- The string pipeline of `_strip_html`: drop tags, collapse whitespace,
strip. -/
def stripHtmlString (s : String) : String :=
  String.mk (pyStripChars (collapseWs (stripTags s.toList)))

/-- locations.py `_strip_html`: falsy input yields null; a truthy
non-string raises `TypeError` inside `re.sub` (uncaught in the source);
a string is cleaned, with the empty result collapsing to null. -/
def _strip_html (v : Val) : Except String Val :=
  if !pyTruthy v then .ok .vnull
  else match v with
    | .vstr s =>
      let t := stripHtmlString s
      .ok (if t == "" then .vnull else .vstr t)
    | _ => .error "TypeError"

/-- products.py `ITEM_TYPE_LABELS.get(item_type, "Unknown")`. -/
def itemTypeLabel : Val → String
  | .vint 1 => "Private Office"
  | .vint 2 => "Dedicated Desk"
  | .vint 3 => "Hot Desk"
  | .vint 4 => "Other"
  | .vint 5 => "Meeting Room"
  | _ => "Unknown"

/-- products.py `item_type in (4, 5)`. -/
def isRoomType (item_type : Val) : Bool :=
  item_type == .vint 4 || item_type == .vint 5

/-- Typed silver row produced by `transform_product`, with the exact key
set of the source dict literal. -/
structure ProductRow where
  source_id : Val
  bronze_id : Nat
  sync_run_id : String
  item_type : Val
  product_type_label : String
  location_source_id : Val
  location_name : Val
  floor_plan_id : Val
  floor_plan_name : Val
  name : Val
  area_code : Val
  price : Val
  currency_code : Val
  is_available : Val
  available_from : Val
  available_to : Val
  coworker_id : Val
  coworker_name : Val
  coworker_company : Val
  coworker_email : Val
  contract_ids_raw : Val
  size_sqm : Val
  custom_size_sqm : Val
  capacity : Val
  size_is_linked_to_area : Val
  resource_id : Val
  resource_name : Val
  resource_type_name : Val
  resource_allocation : Val
  resource_shifts : Val
  amenity_air_conditioning : Val
  amenity_heating : Val
  amenity_internet : Val
  amenity_large_display : Val
  amenity_natural_light : Val
  amenity_whiteboard : Val
  amenity_soundproof : Val
  amenity_quiet_zone : Val
  amenity_tea_coffee : Val
  amenity_security_lock : Val
  amenity_cctv : Val
  amenity_catering : Val
  amenity_conference_phone : Val
  amenity_projector : Val
  amenity_standing_desk : Val
  amenity_drinks : Val
  amenity_privacy_screen : Val
  amenity_voice_recorder : Val
  amenity_standard_phone : Val
  amenity_wireless_charger : Val
  created_on : Val
  updated_on : Val
deriving Repr, DecidableEq

/-- products.py `transform_product`: the only uncaught failure paths are
`raw["Id"]` (`KeyError` on an absent key) and `_extract_custom_size`
(malformed `CustomFields.Data`); every other field is defensively
coerced. -/
def transform_product (raw : Payload) (bronze_id : Nat) (sync_run_id : String) :
    Except String ProductRow := do
  let item_type := pyGet raw "ItemType"
  let is_room := isRoomType item_type
  let source_id ←
    match dictGet raw "Id" with
    | some v => Except.ok v
    | none => Except.error "KeyError: Id"
  let custom_size ← _extract_custom_size raw
  Except.ok {
    source_id := source_id
    bronze_id := bronze_id
    sync_run_id := sync_run_id
    item_type := item_type
    product_type_label := itemTypeLabel item_type
    location_source_id := pyGet raw "FloorPlanBusinessId"
    location_name := pyGet raw "FloorPlanBusinessName"
    floor_plan_id := pyGet raw "FloorPlanId"
    floor_plan_name := pyGet raw "FloorPlanName"
    name := pyOr (pyGet raw "Name") (pyOr (pyGet raw "ToStringText") (.vstr "Unknown"))
    area_code := pyOr (pyGet raw "Area") .vnull
    price := pyGet raw "Price"
    currency_code := pyGet raw "FloorPlanBusinessCurrencyCode"
    is_available := .vint (if pyTruthy (pyGet raw "Available") then 1 else 0)
    available_from := _parse_dt (pyGet raw "AvailableFromTime")
    available_to := _parse_dt (pyGet raw "AvailableToTime")
    coworker_id := pyGet raw "CoworkerId"
    coworker_name := pyGet raw "CoworkerFullName"
    coworker_company := pyOr (pyGet raw "CoworkerTeamNames") (pyGet raw "CoworkerCompanyName")
    coworker_email := pyGet raw "CoworkerEmail"
    contract_ids_raw := pyGet raw "CoworkerContractIds"
    size_sqm := pyGet raw "Size"
    custom_size_sqm := custom_size
    capacity := _int (pyGet raw "Capacity")
    size_is_linked_to_area := _bit (pyGet raw "SizeIsLinkedToArea")
    resource_id := if is_room then pyGet raw "ResourceId" else .vnull
    resource_name := if is_room then pyGet raw "ResourceName" else .vnull
    resource_type_name := if is_room then pyGet raw "ResourceResourceTypeName" else .vnull
    resource_allocation := if is_room then pyGet raw "ResourceAllocation" else .vnull
    resource_shifts := if is_room then pyOr (pyGet raw "ResourceShifts") .vnull else .vnull
    amenity_air_conditioning := if is_room then _bit (pyGet raw "ResourceAirConditioning") else .vnull
    amenity_heating := if is_room then _bit (pyGet raw "ResourceHeating") else .vnull
    amenity_internet := if is_room then _bit (pyGet raw "ResourceInternet") else .vnull
    amenity_large_display := if is_room then _bit (pyGet raw "ResourceLargeDisplay") else .vnull
    amenity_natural_light := if is_room then _bit (pyGet raw "ResourceNaturalLight") else .vnull
    amenity_whiteboard := if is_room then _bit (pyGet raw "ResourceWhiteBoard") else .vnull
    amenity_soundproof := if is_room then _bit (pyGet raw "ResourceSoundproof") else .vnull
    amenity_quiet_zone := if is_room then _bit (pyGet raw "ResourceQuietZone") else .vnull
    amenity_tea_coffee := if is_room then _bit (pyGet raw "ResourceTeaAndCoffee") else .vnull
    amenity_security_lock := if is_room then _bit (pyGet raw "ResourceSecurityLock") else .vnull
    amenity_cctv := if is_room then _bit (pyGet raw "ResourceCCTV") else .vnull
    amenity_catering := if is_room then _bit (pyGet raw "ResourceCatering") else .vnull
    amenity_conference_phone := if is_room then _bit (pyGet raw "ResourceConferencePhone") else .vnull
    amenity_projector := if is_room then _bit (pyGet raw "ResourceProjector") else .vnull
    amenity_standing_desk := if is_room then _bit (pyGet raw "ResourceStandingDesk") else .vnull
    amenity_drinks := if is_room then _bit (pyGet raw "ResourceDrinks") else .vnull
    amenity_privacy_screen := if is_room then _bit (pyGet raw "ResourcePrivacyScreen") else .vnull
    amenity_voice_recorder := if is_room then _bit (pyGet raw "ResourceVoiceRecorder") else .vnull
    amenity_standard_phone := if is_room then _bit (pyGet raw "ResourceStandardPhone") else .vnull
    amenity_wireless_charger := if is_room then _bit (pyGet raw "ResourceWirelessCharger") else .vnull
    created_on := _parse_dt (pyGet raw "CreatedOn")
    updated_on := _parse_dt (pyGet raw "UpdatedOn")
  }

/-- locations.py membership test `source_id in EXCLUDED_SOURCE_IDS`. -/
def excludedSourceId (v : Val) : Bool :=
  v == .vint 1376491116 || v == .vint 1376491117

/-- Typed silver row produced by `transform_location`. -/
structure LocationRow where
  source_id : Val
  bronze_id : Nat
  sync_run_id : String
  nexudus_uuid : Val
  name : Val
  web_address : Val
  address : Val
  postal_code : Val
  city : Val
  state : Val
  country_name : Val
  country_id : Val
  latitude : Val
  longitude : Val
  phone : Val
  email : Val
  web_contact : Val
  currency_code : Val
  description : Val
  short_intro : Val
  created_on : Val
  updated_on : Val
deriving Repr, DecidableEq

/-- locations.py `transform_location`: `none` models the Python `None`
return for excluded source ids; uncaught failure paths are `raw["Id"]`
(`KeyError`) and `_strip_html` on a truthy non-string content field. -/
def transform_location (raw : Payload) (bronze_id : Nat) (sync_run_id : String) :
    Except String (Option LocationRow) := do
  if excludedSourceId (pyGet raw "Id") then
    Except.ok none
  else
    let source_id ←
      match dictGet raw "Id" with
      | some v => Except.ok v
      | none => Except.error "KeyError: Id"
    let description ← _strip_html (pyGet raw "AboutUs")
    let short_intro ← _strip_html (pyGet raw "ShortIntroduction")
    Except.ok (some {
      source_id := source_id
      bronze_id := bronze_id
      sync_run_id := sync_run_id
      nexudus_uuid := _str (pyGet raw "UniqueId")
      name := pyOr (_str (pyGet raw "Name")) (pyOr (_str (pyGet raw "ToStringText")) (.vstr "Unknown"))
      web_address := _str (pyGet raw "WebAddress")
      address := _str (pyGet raw "Address")
      postal_code := _str (pyGet raw "PostalCode")
      city := _str (pyGet raw "TownCity")
      state := _str (pyGet raw "State")
      country_name := _str (pyGet raw "CountryName")
      country_id := pyGet raw "CountryId"
      latitude := pyGet raw "Latitude"
      longitude := pyGet raw "Longitude"
      phone := _str (pyGet raw "Phone")
      email := _str (pyGet raw "EmailContact")
      web_contact := _str (pyGet raw "WebContact")
      currency_code := _str (pyGet raw "CurrencyCode")
      description := description
      short_intro := short_intro
      created_on := _parse_dt (pyGet raw "CreatedOn")
      updated_on := _parse_dt (pyGet raw "UpdatedOn")
    })

/-- Transformer helper `_decimal` (contracts.py, extra_services.py):
`float(value)` with `None` passthrough and `TypeError`/`ValueError`
caught to null. -/
def _decimal (v : Val) : Val := (pyFloat? v).getD .vnull

/-- extra_services.py `_bit` (unlike the products/locations `_bit`, it has
no `None` passthrough: any falsy value becomes 0). -/
def _bit_es (v : Val) : Val := .vint (if pyTruthy v then 1 else 0)

/-- Python `raw.get(k, default)`: the default applies only to an absent
key, not to a key bound to `None`. -/
def pyGetD (raw : Payload) (key : String) (d : Val) : Val :=
  (dictGet raw key).getD d

/-- Typed silver row produced by `transform_contract`. -/
structure ContractRow where
  source_id : Val
  unique_id : Val
  bronze_id : Nat
  sync_run_id : String
  active : Val
  cancelled : Val
  main_contract : Val
  in_paused_period : Val
  coworker_id : Val
  coworker_name : Val
  coworker_email : Val
  coworker_company : Val
  coworker_billing_name : Val
  coworker_type : Val
  coworker_active : Val
  location_source_id : Val
  location_name : Val
  tariff_id : Val
  tariff_name : Val
  tariff_price : Val
  currency_code : Val
  next_tariff_id : Val
  next_tariff_name : Val
  floor_plan_desk_ids : Val
  floor_plan_desk_names : Val
  price : Val
  price_with_products : Val
  unit_price : Val
  quantity : Val
  billing_day : Val
  apply_pro_rating : Val
  pro_rate_cancellation : Val
  include_signup_fee : Val
  cancellation_limit_days : Val
  start_date : Val
  contract_term : Val
  renewal_date : Val
  cancellation_date : Val
  invoiced_period : Val
  term_duration_months : Val
  notes : Val
  updated_by : Val
  created_on : Val
  updated_on : Val
deriving Repr, DecidableEq

/-- contracts.py `transform_contract`: the only uncaught failure path is
`raw["Id"]` (`KeyError` on an absent key); every other field is read with
`.get` and coerced by the total helpers. -/
def transform_contract (raw : Payload) (bronze_id : Nat) (sync_run_id : String) :
    Except String ContractRow := do
  let source_id ←
    match dictGet raw "Id" with
    | some v => Except.ok v
    | none => Except.error "KeyError: Id"
  Except.ok {
    source_id := source_id
    unique_id := _str (pyGet raw "UniqueId")
    bronze_id := bronze_id
    sync_run_id := sync_run_id
    active := .vint (if pyTruthy (pyGet raw "Active") then 1 else 0)
    cancelled := .vint (if pyTruthy (pyGet raw "Cancelled") then 1 else 0)
    main_contract := .vint (if pyTruthy (pyGet raw "MainContract") then 1 else 0)
    in_paused_period := .vint (if pyTruthy (pyGet raw "InPausedPeriod") then 1 else 0)
    coworker_id := pyGet raw "CoworkerId"
    coworker_name := _str (pyGet raw "CoworkerFullName")
    coworker_email := _str (pyGet raw "CoworkerEmail")
    coworker_company := _str (pyGet raw "CoworkerCompanyName")
    coworker_billing_name := _str (pyGet raw "CoworkerBillingName")
    coworker_type := _int (pyGet raw "CoworkerCoworkerType")
    coworker_active := _bit (pyGet raw "CoworkerActive")
    location_source_id := pyGet raw "IssuedById"
    location_name := _str (pyGet raw "IssuedByName")
    tariff_id := pyGet raw "TariffId"
    tariff_name := _str (pyGet raw "TariffName")
    tariff_price := _decimal (pyGet raw "TariffPrice")
    currency_code := _str (pyGet raw "TariffCurrencyCode")
    next_tariff_id := pyGet raw "NextTariffId"
    next_tariff_name := _str (pyGet raw "NextTariffName")
    floor_plan_desk_ids := _str (pyGet raw "FloorPlanDeskIds")
    floor_plan_desk_names := _str (pyGet raw "FloorPlanDeskNames")
    price := _decimal (pyGet raw "Price")
    price_with_products := _decimal (pyGet raw "PriceWithProducts")
    unit_price := _decimal (pyGet raw "UnitPrice")
    quantity := _int (pyGet raw "Quantity")
    billing_day := _int (pyGet raw "BillingDay")
    apply_pro_rating := _bit (pyGet raw "ApplyProRating")
    pro_rate_cancellation := _bit (pyGet raw "ProRateCancellation")
    include_signup_fee := _bit (pyGet raw "IncludeSignupFee")
    cancellation_limit_days := _int (pyGet raw "CancellationLimitDays")
    start_date := _parse_dt (pyGet raw "StartDate")
    contract_term := _parse_dt (pyGet raw "ContractTerm")
    renewal_date := _parse_dt (pyGet raw "RenewalDate")
    cancellation_date := _parse_dt (pyGet raw "CancellationDate")
    invoiced_period := _parse_dt (pyGet raw "InvoicedPeriod")
    term_duration_months := _int (pyGet raw "TermDurationInMonths")
    notes := _str (pyGet raw "Notes")
    updated_by := _str (pyGet raw "UpdatedBy")
    created_on := _parse_dt (pyGet raw "CreatedOn")
    updated_on := _parse_dt (pyGet raw "UpdatedOn")
  }

/-- Typed silver row produced by `transform_extra_service`. -/
structure ExtraServiceRow where
  source_id : Val
  unique_id : Val
  bronze_id : Nat
  sync_run_id : String
  location_source_id : Val
  name : Val
  description : Val
  price : Val
  currency_code : Val
  charge_period : Val
  credit_price : Val
  fixed_cost_price : Val
  fixed_cost_length_minutes : Val
  maximum_price : Val
  min_length_minutes : Val
  max_length_minutes : Val
  is_default_price : Val
  is_printing_credit : Val
  only_for_contacts : Val
  only_for_members : Val
  apply_charge_to_visitors : Val
  use_per_night_pricing : Val
  last_minute_adjustment_type : Val
  apply_from : Val
  apply_to : Val
  resource_type_names : Val
  tax_rate_id : Val
  reduced_tax_rate_id : Val
  exempt_tax_rate_id : Val
  financial_account_id : Val
  updated_by : Val
  created_on : Val
  updated_on : Val
deriving Repr, DecidableEq

/-- extra_services.py `transform_extra_service`: the uncaught failure
paths are `raw["Id"]` and `raw["BusinessId"]` (`KeyError` on an absent
key), in that evaluation order; every other field is read with `.get` and
coerced by the total helpers.  The float literal `0.0` of the price
default is carried as the integer 0. -/
def transform_extra_service (raw : Payload) (bronze_id : Nat) (sync_run_id : String) :
    Except String ExtraServiceRow := do
  let source_id ←
    match dictGet raw "Id" with
    | some v => Except.ok v
    | none => Except.error "KeyError: Id"
  let location_source_id ←
    match dictGet raw "BusinessId" with
    | some v => Except.ok v
    | none => Except.error "KeyError: BusinessId"
  Except.ok {
    source_id := source_id
    unique_id := _str (pyGet raw "UniqueId")
    bronze_id := bronze_id
    sync_run_id := sync_run_id
    location_source_id := location_source_id
    name := pyOr (_str (pyGet raw "Name")) (pyOr (_str (pyGet raw "ToStringText")) (.vstr ""))
    description := _str (pyGet raw "Description")
    price := pyOr (_decimal (pyGet raw "Price")) (.vint 0)
    currency_code := _str (pyGet raw "CurrencyCode")
    charge_period := _int (pyGet raw "ChargePeriod")
    credit_price := _decimal (pyGet raw "CreditPrice")
    fixed_cost_price := _decimal (pyGet raw "FixedCostPrice")
    fixed_cost_length_minutes := _int (pyGet raw "FixedCostLength")
    maximum_price := _decimal (pyGet raw "MaximumPrice")
    min_length_minutes := _int (pyGet raw "MinLength")
    max_length_minutes := _int (pyGet raw "MaxLength")
    is_default_price := _bit_es (pyGet raw "IsDefaultPrice")
    is_printing_credit := _bit_es (pyGet raw "IsPrintingCredit")
    only_for_contacts := _bit_es (pyGet raw "OnlyForContacts")
    only_for_members := _bit_es (pyGet raw "OnlyForMembers")
    apply_charge_to_visitors := _bit_es (pyGet raw "ApplyChargeToVisitors")
    use_per_night_pricing := _bit_es (pyGet raw "UsePerNightPricing")
    last_minute_adjustment_type := _int (pyGet raw "LastMinuteAdjustmentType")
    apply_from := _parse_dt (pyGet raw "ApplyFrom")
    apply_to := _parse_dt (pyGet raw "ApplyTo")
    resource_type_names := _str (pyGet raw "ResourceTypeNames")
    tax_rate_id := _int (pyGet raw "TaxRateId")
    reduced_tax_rate_id := _int (pyGet raw "ReducedTaxRateId")
    exempt_tax_rate_id := _int (pyGet raw "ExemptTaxRateId")
    financial_account_id := _int (pyGet raw "FinancialAccountId")
    updated_by := _str (pyGet raw "UpdatedBy")
    created_on := _parse_dt (pyGet raw "CreatedOn")
    updated_on := _parse_dt (pyGet raw "UpdatedOn")
  }

/-- Typed silver row produced by `transform_resource`. -/
structure ResourceRow where
  source_id : Val
  bronze_id : Nat
  sync_run_id : String
  location_source_id : Val
  nexudus_uuid : Val
  name : Val
  description : Val
  resource_type_id : Val
  resource_type_name : Val
  group_id : Val
  group_name : Val
  visible : Val
  online : Val
  visible_to_others : Val
  available : Val
  capacity : Val
  size : Val
  floor_number : Val
  accessible : Val
  created_on : Val
  updated_on : Val
deriving Repr, DecidableEq

/-- resources.py `transform_resource`: a falsy `Id` yields the skip value
`None`; every field is read with `.get` (some with a `False` default), so
no failure path exists — the `Except` layer records that the function
never raises. -/
def transform_resource (raw : Payload) (bronze_id : Nat) (sync_run_id : String) :
    Except String (Option ResourceRow) :=
  let source_id := pyGet raw "Id"
  if !pyTruthy source_id then Except.ok none
  else Except.ok (some {
    source_id := source_id
    bronze_id := bronze_id
    sync_run_id := sync_run_id
    location_source_id := pyGet raw "BusinessId"
    nexudus_uuid := pyGet raw "UniqueId"
    name := pyGet raw "Name"
    description := pyGet raw "Description"
    resource_type_id := pyGet raw "ResourceTypeId"
    resource_type_name := pyGet raw "ResourceTypeName"
    group_id := pyGet raw "GroupId"
    group_name := pyGet raw "GroupName"
    visible := pyGetD raw "Visible" (.vbool false)
    online := pyGetD raw "Online" (.vbool false)
    visible_to_others := pyGetD raw "VisibleToOthers" (.vbool false)
    available := pyGetD raw "Available" (.vbool false)
    capacity := pyGet raw "Capacity"
    size := pyGet raw "Size"
    floor_number := pyGet raw "FloorNumber"
    accessible := pyGetD raw "Accessible" (.vbool false)
    created_on := pyGet raw "CreatedOn"
    updated_on := pyGet raw "UpdatedOn"
  })

/-- One row of a `bronze.nexudus_*` table.  `raw` holds the parsed form of
the `raw_json` column (`json.dumps` on write, `json.loads` on read);
`synced_at` is the capture timestamp and `id` the identity column. -/
structure BronzeRow where
  id : Nat
  sync_run_id : String
  source_id : Option Int
  raw : Val
  synced_at : Nat
deriving Repr, DecidableEq

/-- The `source_id` bind parameter built by the entity writers from
`r.get("Id")`.  The column is integral in the schema, so an absent or
non-integer payload id lands as SQL NULL. -/
def extractSourceId (r : Payload) : Option Int :=
  match dictGet r "Id" with
  | some (.vint n) => some n
  | _ => none

/-- SQL three-valued equality on a nullable column: a NULL on either side
never matches. -/
def sqlEqOpt (a b : Option Int) : Bool :=
  match a, b with
  | some x, some y => x == y
  | _, _ => false

/-- Strict order of the `ORDER BY t.synced_at DESC, t.id DESC` clause:
`laterRow a b` holds when `b` sorts before `a`. -/
def laterRow (a b : BronzeRow) : Bool :=
  b.synced_at > a.synced_at || (b.synced_at == a.synced_at && b.id > a.id)

/-- The later of two rows under the merge ordering. -/
def betterOf (a b : BronzeRow) : BronzeRow := if laterRow a b then b else a

/-- `SELECT TOP 1 ... ORDER BY synced_at DESC, id DESC` over a row list. -/
def pickLatest : List BronzeRow → Option BronzeRow
  | [] => none
  | t :: rest =>
    some (match pickLatest rest with
      | none => t
      | some b => betterOf t b)

/-- The id selected by the correlated subquery of `_build_merge_sql`:
the most recent existing row sharing the incoming `source_id`. -/
def latestTargetId (store : List BronzeRow) (sid : Option Int) : Option Nat :=
  (pickLatest (store.filter (fun t => sqlEqOpt t.source_id sid))).map (fun b => b.id)

/-- Next value of the identity column. -/
def nextBronzeId (store : List BronzeRow) : Nat :=
  store.foldl (fun m t => max m t.id) 0 + 1

/-- One execution of the MERGE statement of `_build_merge_sql` for the
locations table: WHEN MATCHED the selected row is updated in place
(update columns `sync_run_id`, `raw_json`, plus `synced_at = GETUTCDATE()`),
WHEN NOT MATCHED a new row is inserted.  The inserted `synced_at` comes
from the capture-timestamp column default (DDL outside src/), here `now`.
The other entity writers reuse `_batch_upsert` with the same statement
shape over their extra routing columns. -/
def mergeLocRow (run : String) (now : Nat) (store : List BronzeRow) (row : Option Int × Val) :
    List BronzeRow :=
  match latestTargetId store row.1 with
  | some tid =>
    store.map (fun t =>
      if t.id == tid then { t with sync_run_id := run, raw := row.2, synced_at := now } else t)
  | none =>
    store ++ [{ id := nextBronzeId store, sync_run_id := run, source_id := row.1,
                raw := row.2, synced_at := now }]

/-- Fuel-indexed batching (`range(0, len(rows), BATCH_SIZE)`); the fuel is
instantiated with the row count, which always suffices. -/
def chunksFuel (n : Nat) : Nat → List α → List (List α)
  | 0, _ => []
  | _, [] => []
  | fuel + 1, l => l.take n :: chunksFuel n fuel (l.drop n)

/-- The batch decomposition of a row list. -/
def chunksOf (n : Nat) (l : List α) : List (List α) := chunksFuel n l.length l

/-- Result of `_batch_upsert`: the table after all statements, the
`processed` count the method returns, and the number of statement
executions it issued. -/
structure UpsertResult where
  store : List BronzeRow
  processed : Nat
  exec_calls : Nat
deriving Repr, DecidableEq

/-- bronze_writer.py `_batch_upsert`: an empty row list returns 0 before
any SQL is built or executed; otherwise the merge statement runs once per
row, batch by batch of 100, and `processed` accumulates the batch sizes.
The per-statement affected-row count reported by the database is never
read. -/
def _batch_upsert (mergeOne : List BronzeRow → Option Int × Val → List BronzeRow)
    (store : List BronzeRow) (rows : List (Option Int × Val)) : UpsertResult :=
  if rows.isEmpty then ⟨store, 0, 0⟩
  else
    { store := rows.foldl mergeOne store
      processed := ((chunksOf 100 rows).map List.length).sum
      exec_calls := rows.length }

/-- bronze_writer.py `write_locations`: one parameter tuple
`(sync_run_id, r.get("Id"), json.dumps(r))` per input record, handed to
`_batch_upsert`. -/
def write_locations (run : String) (now : Nat) (store : List BronzeRow)
    (records : List Payload) : UpsertResult :=
  _batch_upsert (mergeLocRow run now) store
    (records.map (fun r => (extractSourceId r, Val.vdict r)))

/-- One row of `meta.sync_runs`.  The counter columns default to 0 and
`finished_at`/`error_message` to NULL on insert (DDL outside src/). -/
structure RunRecord where
  id : String
  source_name : String
  entity : String
  layer : String
  status : String
  started_at : Nat
  finished_at : Option Nat
  rows_read : Nat
  rows_written : Nat
  rows_skipped : Nat
  error_message : Option String
  triggered_by : String
  metadata : Option String
deriving Repr, DecidableEq

/-- The mutable counters a RunTracker exposes to the body of the scope. -/
structure Counters where
  rows_read : Nat
  rows_written : Nat
  rows_skipped : Nat
deriving Repr, DecidableEq

/-- run_tracker.py `__aenter__`: INSERT of the run row in `running` state. -/
def runTrackerEnter (runId source entity layer tb : String) (metadata : Option String)
    (started : Nat) (table : List RunRecord) : List RunRecord :=
  table ++ [{ id := runId, source_name := source, entity := entity, layer := layer,
              status := "running", started_at := started, finished_at := none,
              rows_read := 0, rows_written := 0, rows_skipped := 0,
              error_message := none, triggered_by := tb, metadata := metadata }]

/-- run_tracker.py `__aexit__`: the single terminal UPDATE.  `exc` is
`str(exc_val)` of the in-flight exception, or `none` on a clean exit;
status and `error_message` are derived exactly as in the source. -/
def runTrackerExit (runId : String) (finished : Nat) (c : Counters) (exc : Option String)
    (table : List RunRecord) : List RunRecord :=
  table.map (fun r =>
    if r.id == runId then
      { r with status := if exc.isNone then "success" else "failed"
               finished_at := some finished
               rows_read := c.rows_read
               rows_written := c.rows_written
               rows_skipped := c.rows_skipped
               error_message := exc }
    else r)

/-- A full tracked scope (`async with RunTracker(...)`): enter, run the
body (final counters plus optional exception message), exit.  The second
component of the result is the exception that propagates to the caller;
`__aexit__` returns False, so it is exactly the body exception. -/
def runTrackerScope (runId source entity layer tb : String) (metadata : Option String)
    (started finished : Nat) (body : Counters × Option String) (table : List RunRecord) :
    List RunRecord × Option String :=
  let t1 := runTrackerEnter runId source entity layer tb metadata started table
  (runTrackerExit runId finished body.1 body.2 t1, body.2)

/-- SQL effects a silver products run can issue: a MERGE into
`silver.nexudus_products`, or an INSERT into `meta.sync_errors` (the
statement body of `RunTracker.log_error`). -/
inductive SilverSqlEffect where
  | mergeProduct (p : ProductRow)
  | insertSyncError (sync_run_id source_id entity error_message : String)
deriving Repr, DecidableEq

/-- run_tracker.py `log_error`: the Error Record insert it would issue. -/
def log_error (run entity source_id msg : String) : SilverSqlEffect :=
  .insertSyncError run source_id entity msg

/-- Recognizer for an Error Record insert. -/
def isSyncErrorInsert : SilverSqlEffect → Bool
  | .insertSyncError _ _ _ _ => true
  | .mergeProduct _ => false

/-- silver_writer_products.py: the post-transform business skip
`p["location_source_id"] in {1376491116, 1376491117}`. -/
def skipGlobalProduct (p : ProductRow) : Bool :=
  match p.location_source_id with
  | .vint n => n == 1376491116 || n == 1376491117
  | _ => false

/-- Accumulated state of `SilverProductsWriter.run`: the `ok` and `errors`
counters and the SQL effects issued so far. -/
structure SilverRunState where
  ok : Nat
  errors : Nat
  effects : List SilverSqlEffect
deriving Repr, DecidableEq

/-- One iteration of the loop in `SilverProductsWriter.run`: transform,
skip beyond-Global products, upsert; the `except` arm only bumps the error
counter and logs a local warning — no SQL effect is issued for a failed
record. -/
def silverStep (sync_run_id : String) (acc : SilverRunState) (row : Nat × Payload) :
    SilverRunState :=
  match transform_product row.2 row.1 sync_run_id with
  | .error _ => { acc with errors := acc.errors + 1 }
  | .ok p =>
    if skipGlobalProduct p then acc
    else { acc with ok := acc.ok + 1, effects := acc.effects ++ [.mergeProduct p] }

/-- silver_writer_products.py `run` over the selected bronze rows, each
given as (bronze id, parsed raw_json). -/
def silver_products_run (sync_run_id : String) (rows : List (Nat × Payload)) : SilverRunState :=
  rows.foldl (silverStep sync_run_id) ⟨0, 0, []⟩

/-- The grouped subquery `SELECT source_id, MAX(synced_at) ... GROUP BY
source_id` evaluated at one source id. -/
def maxSyncedFor (bronze : List BronzeRow) (sid : Int) : Option Nat :=
  bronze.foldl (fun acc t =>
    if sqlEqOpt t.source_id (some sid) then
      match acc with
      | none => some t.synced_at
      | some m => some (max m t.synced_at)
    else acc) none

/-- The `_load_latest_bronze` query shared verbatim by
silver_writer_products.py and silver_write_locations.py: the INNER JOIN
keeps exactly the rows whose `synced_at` equals the per-source-id maximum;
NULL source ids never satisfy the join condition.  The SQL projects a
column subset; the model keeps whole rows. -/
def _load_latest_bronze (bronze : List BronzeRow) : List BronzeRow :=
  bronze.filter (fun b =>
    match b.source_id with
    | some sid => maxSyncedFor bronze sid == some b.synced_at
    | none => false)

/-- The (id, parsed raw_json) pair a silver run consumes per loaded row. -/
def rowPayload (b : BronzeRow) : Nat × Payload :=
  (b.id, match b.raw with
    | .vdict fs => fs
    | _ => [])

/-- One upstream page body `{Records: [...], HasNextPage: bool}`. -/
structure Page where
  Records : List Val
  HasNextPage : Bool
deriving Repr, DecidableEq

/-- client.py `paginate`, fuel-indexed: request the current page; stop
before yielding when `Records` is empty; yield; stop after yielding when
`HasNextPage` is false; otherwise continue with the next page.  The first
component collects the yielded batches, the second the page numbers
requested.  The source loop is `while True`; the fuel only truncates
observation and the termination theorems show the trace is fuel-invariant
past the stopping page. -/
def paginateFuel (server : Nat → Page) (page : Nat) : Nat → List (List Val) × List Nat
  | 0 => ([], [])
  | fuel + 1 =>
    let data := server page
    if data.Records.isEmpty then ([], [page])
    else if !data.HasNextPage then ([data.Records], [page])
    else
      let rest := paginateFuel server (page + 1) fuel
      (data.Records :: rest.1, page :: rest.2)

/-- client.py `get_all`: concatenation of all yielded batches, starting at
page 1. -/
def get_all (server : Nat → Page) (fuel : Nat) : List Val :=
  (paginateFuel server 1 fuel).1.flatten

/-- The pages `paginate` actually requests, starting at page 1. -/
def requested_pages (server : Nat → Page) (fuel : Nat) : List Nat :=
  (paginateFuel server 1 fuel).2

/-- Outcome of one HTTP attempt inside `NexudusClient.get`: a 2xx JSON
payload, an HTTP error status (with the optional parsed `Retry-After`
header for a 429), or a connection/timeout failure. -/
inductive AttemptOutcome where
  | success (payload : Val)
  | httpError (status : Nat) (retryAfter : Option Nat)
  | connError
  | timeoutError
deriving Repr, DecidableEq

/-- client.py `_is_retryable`: HTTP 429/500/502/503/504, server-connection
errors and timeouts retry; anything else does not.  A success is not an
exception and never reaches this predicate. -/
def _is_retryable : AttemptOutcome → Bool
  | .httpError s _ => s == 429 || s == 500 || s == 502 || s == 503 || s == 504
  | .connError => true
  | .timeoutError => true
  | .success _ => false

/-- tenacity `wait_exponential(multiplier=2, min=4, max=60)` after the
`attempt`-th failed attempt (1-based): the doubling schedule clamped to
[4, 60], i.e. 4, 8, 16, 32 seconds. -/
def wait_exponential (attempt : Nat) : Nat := max 4 (min (2 * 2 ^ attempt) 60)

/-- The in-request sleep of the 429 arm: `int(headers.get("Retry-After", 15))`
seconds, slept before `raise_for_status` hands the error to tenacity. -/
def retryAfterSleep : AttemptOutcome → List Nat
  | .httpError 429 ra => [ra.getD 15]
  | _ => []

/-- Trace of one `NexudusClient.get` call: final result, number of HTTP
attempts made, and every sleep issued, in order. -/
structure GetTrace where
  result : Except AttemptOutcome Val
  attempts : Nat
  sleeps : List Nat
deriving Repr

/-- The tenacity-decorated request loop: attempt `k` consumes one unit of
budget; a retryable failure with budget remaining sleeps (the 429
Retry-After sleep, then the exponential backoff) and moves to attempt
`k + 1`; any other failure propagates at once.  The zero-budget row is
unreachable from `nexudus_get`. -/
def getAttempts (outcomes : Nat → AttemptOutcome) (k : Nat) : Nat → GetTrace
  | 0 => ⟨.error .connError, 0, []⟩
  | budget + 1 =>
    match outcomes k with
    | .success p => ⟨.ok p, 1, []⟩
    | f =>
      if _is_retryable f && budget != 0 then
        let rest := getAttempts outcomes (k + 1) budget
        ⟨rest.result, rest.attempts + 1, retryAfterSleep f ++ wait_exponential k :: rest.sleeps⟩
      else
        ⟨.error f, 1, retryAfterSleep f⟩

/-- client.py `get` under `stop_after_attempt(5)`: at most five attempts. -/
def nexudus_get (outcomes : Nat → AttemptOutcome) : GetTrace :=
  getAttempts outcomes 1 5

/-- bronze_nexudus.py `_sync_products` resource-discovery loop body:
record a (FloorPlanBusinessId, ResourceId) reference when both are truthy,
deduplicating within the per-location list
(`if resource_id not in resource_ids_by_location[location_id]`). -/
def addResourceRecord (acc : List (Val × List Val)) (r : Payload) : List (Val × List Val) :=
  let resource_id := pyGet r "ResourceId"
  let location_id := pyGet r "FloorPlanBusinessId"
  if pyTruthy resource_id && pyTruthy location_id then
    if acc.any (fun p => p.1 == location_id) then
      acc.map (fun p =>
        if p.1 == location_id then
          (p.1, if p.2.contains resource_id then p.2 else p.2 ++ [resource_id])
        else p)
    else acc ++ [(location_id, [resource_id])]
  else acc

/-- The `resource_ids_by_location` insertion-ordered dict built from the
fetched products. -/
def resource_ids_by_location (records : List Payload) : List (Val × List Val) :=
  records.foldl addResourceRecord []

/-- bronze_nexudus.py `_sync_resources` flattening
`[(location_id, resource_id) for location_id, ids in ... for resource_id in ids]`. -/
def all_resource_ids (m : List (Val × List Val)) : List (Val × Val) :=
  m.flatMap (fun p => p.2.map (fun rid => (p.1, rid)))

/-- The request path of one per-resource fetch
(`f"spaces/resources/{resource_id}"`). -/
def resourcePath (rid : Val) : String := "spaces/resources/" ++ pyToString rid

/-- Observable trace of `_sync_resources`: whether a RunTracker scope was
created, the counters, and the fetch paths issued. -/
structure ResourceSyncTrace where
  run_created : Bool
  rows_read : Nat
  fetch_paths : List String
  rows_skipped : Nat
  rows_written : Nat
deriving Repr, DecidableEq

/-- Per-pair result of the concurrent `gather(..., return_exceptions=True)`
fan-out: an exception, or the `get_one` result (`none` models the 404
arm). -/
abbrev FetchResult := Except String (Option Val)

/-- Recognizer for a captured per-item exception. -/
def fetchFailed : FetchResult → Bool
  | .error _ => true
  | .ok _ => false

/-- The records kept by the reducer loop of `_sync_resources`: exceptions
are skipped and counted, falsy results (404) are silently dropped, truthy
records are written with their location id. -/
def keptResourceRecords (pairs : List (Val × Val)) (fetch : Val × Val → FetchResult) :
    List (Val × Val) :=
  pairs.filterMap (fun pr =>
    match fetch pr with
    | .error _ => none
    | .ok none => none
    | .ok (some rec) => if pyTruthy rec then some (rec, pr.1) else none)

/-- bronze_nexudus.py `_sync_resources`: an empty pair list returns before
any RunTracker scope is opened; otherwise one fetch task is issued per
pair, failures are counted as skipped, and each kept record is written via
`write_resources([record], location_id)`, which contributes exactly 1 to
the written total. -/
def sync_resources (fetch : Val × Val → FetchResult) (pairs : List (Val × Val)) :
    ResourceSyncTrace :=
  if pairs.isEmpty then ⟨false, 0, [], 0, 0⟩
  else
    { run_created := true
      rows_read := pairs.length
      fetch_paths := pairs.map (fun pr => resourcePath pr.2)
      rows_skipped := ((pairs.map fetch).filter fetchFailed).length
      rows_written := (keptResourceRecords pairs fetch).length }

/-- Whether transforming a loaded row raises (the `except` arm of the
silver loop fires). -/
def transformFailed (run : String) (r : Nat × Payload) : Bool :=
  match transform_product r.2 r.1 run with
  | .error _ => true
  | .ok _ => false

/-- Whether a loaded row transforms successfully but is then dropped by
the beyond-Global skip filter. -/
def transformSkipped (run : String) (r : Nat × Payload) : Bool :=
  match transform_product r.2 r.1 run with
  | .ok p => skipGlobalProduct p
  | .error _ => false

/-- Shape hypothesis for transformer totality: a content field destined
for `_strip_html` is falsy or a string. -/
def contentFieldOk (raw : Payload) (key : String) : Prop :=
  pyTruthy (pyGet raw key) = false ∨ ∃ s, pyGet raw key = Val.vstr s

/-- Shape hypothesis for transformer totality: when `CustomFields` is a
dict, its `Data` is falsy or a list of dicts (the shapes on which
`_extract_custom_size` cannot raise). -/
def customFieldsOk (raw : Payload) : Prop :=
  match pyGet raw "CustomFields" with
  | .vdict custom =>
    pyTruthy (pyGet custom "Data") = false ∨
      ∃ xs, pyGet custom "Data" = Val.vlist xs ∧ ∀ x ∈ xs, ∃ fs, x = Val.vdict fs
  | _ => True

/-- Fixture: a bronze locations table holding one row captured by run A. -/
def c1Store : List BronzeRow :=
  [{ id := 1, sync_run_id := "runA", source_id := some 7,
     raw := .vdict [("Id", .vint 7), ("Name", .vstr "Old")], synced_at := 10 }]

/-- Fixture: a re-fetched record for the same natural id, arriving in a
later run B. -/
def c1Record : Payload := [("Id", .vint 7), ("Name", .vstr "New")]

/-- Fixture: the earlier capture of natural id 7. -/
def c2RowOld : BronzeRow :=
  { id := 1, sync_run_id := "runA", source_id := some 7,
    raw := .vdict [("Id", .vint 7), ("Name", .vstr "Old")], synced_at := 10 }

/-- Fixture: the later capture of natural id 7. -/
def c2RowNew : BronzeRow :=
  { id := 2, sync_run_id := "runB", source_id := some 7,
    raw := .vdict [("Id", .vint 7), ("Name", .vstr "New")], synced_at := 20 }

/-- Fixture: a bronze table with two captures of the same natural id. -/
def c2Bronze : List BronzeRow := [c2RowOld, c2RowNew]

/-- Fixture: a well-formed loaded product row. -/
def c3RowGood : Nat × Payload := (1, [("Id", .vint 11), ("FloorPlanBusinessId", .vint 5)])

/-- Fixture: a malformed loaded row (no natural id), whose transform
raises. -/
def c3RowBad : Nat × Payload := (2, [])

/-- Fixture: a well-formed row belonging to the beyond-Global root
account, dropped by the skip filter. -/
def c3RowGlobal : Nat × Payload :=
  (3, [("Id", .vint 12), ("FloorPlanBusinessId", .vint 1376491116)])

/-- Fixture: three loaded rows, one malformed and one beyond-Global. -/
def c3Rows : List (Nat × Payload) := [c3RowGood, c3RowBad, c3RowGlobal]

/-- Fixture: a server that keeps `HasNextPage: true` forever but returns
an empty `Records` list from page 3 on. -/
def c5Server (k : Nat) : Page :=
  if k < 3 then { Records := [.vint (Int.ofNat k)], HasNextPage := true }
  else { Records := [], HasNextPage := true }

/-- Fixture: an upstream that answers 500 once, then 403. -/
def c6Outcomes (k : Nat) : AttemptOutcome :=
  if k == 1 then .httpError 500 none else .httpError 403 none

/-- Fixture: an upstream that answers 429 with Retry-After 2 once, then
succeeds. -/
def c7Outcomes (k : Nat) : AttemptOutcome :=
  if k == 1 then .httpError 429 (some 2) else .success (.vstr "payload")

/-- Fixture: three products referencing (location 10, resource 100) twice
and (location 20, resource 200) once. -/
def c8Products : List Payload :=
  [[("Id", .vint 1), ("ResourceId", .vint 100), ("FloorPlanBusinessId", .vint 10)],
   [("Id", .vint 2), ("ResourceId", .vint 100), ("FloorPlanBusinessId", .vint 10)],
   [("Id", .vint 3), ("ResourceId", .vint 200), ("FloorPlanBusinessId", .vint 20)]]

/-- Fixture: a fetch oracle that succeeds with a small record body. -/
def c8Fetch (pr : Val × Val) : FetchResult :=
  .ok (some (.vdict [("Id", pr.2)]))

/-- The batch decomposition partitions the rows: batch sizes sum to the
row count whenever the fuel covers the list. -/
theorem chunksFuel_sum_len {α : Type} (n : Nat) (hn : 0 < n) :
    ∀ (fuel : Nat) (l : List α), l.length ≤ fuel →
      ((chunksFuel n fuel l).map List.length).sum = l.length := by
  intro fuel
  induction fuel with
  | zero =>
    intro l hl
    have hz : l.length = 0 := Nat.le_zero.mp hl
    have : l = [] := List.eq_nil_of_length_eq_zero hz
    subst this
    simp [chunksFuel]
  | succ f ih =>
    intro l hl
    cases l with
    | nil => simp [chunksFuel]
    | cons x xs =>
      have hstep :
          chunksFuel n (f + 1) (x :: xs) =
            (x :: xs).take n :: chunksFuel n f ((x :: xs).drop n) := by
        simp [chunksFuel]
      have hdrop : ((x :: xs).drop n).length ≤ f := by
        rw [List.length_drop]
        simp only [List.length_cons] at hl ⊢
        omega
      rw [hstep, List.map_cons, List.sum_cons, ih _ hdrop]
      rw [List.length_take, List.length_drop]
      simp only [List.length_cons]
      omega

/-- C10: every `BronzeWriter.write_<entity>` call returns exactly the
number of input records, independent of the table contents and of any
database-reported affected count; an empty record list returns 0 with no
statement executed and the table untouched. -/
theorem c10_bronze_write_count (run : String) (now : Nat)
    (store : List BronzeRow) (records : List Payload) :
    (write_locations run now store records).processed = records.length ∧
    (records = [] →
      (write_locations run now store records).store = store ∧
      (write_locations run now store records).exec_calls = 0) := by
  cases records with
  | nil => simp [write_locations, _batch_upsert]
  | cons r rs =>
    refine ⟨?_, by intro h; cases h⟩
    have hsum :=
      chunksFuel_sum_len (α := Option Int × Val) 100 (by decide)
        (((r :: rs).map (fun q => (extractSourceId q, Val.vdict q))).length)
        ((r :: rs).map (fun q => (extractSourceId q, Val.vdict q))) le_rfl
    simp only [write_locations, _batch_upsert, List.map_cons, List.isEmpty_cons,
      Bool.false_eq_true, if_false, chunksOf]
    simp only [List.map_cons] at hsum
    rw [hsum]
    simp

/-- C10 witness: concrete evaluations of the count contract. -/
theorem c10_bronze_write_count_witness :
    (write_locations "runB" 20 c1Store [c1Record]).processed = 1 ∧
    (write_locations "runB" 20 c1Store []).store = c1Store ∧
    (write_locations "runB" 20 c1Store []).exec_calls = 0 :=
  ⟨(c10_bronze_write_count "runB" 20 c1Store [c1Record]).1,
   ((c10_bronze_write_count "runB" 20 c1Store []).2 rfl).1,
   ((c10_bronze_write_count "runB" 20 c1Store []).2 rfl).2⟩

/-- The pagination trace advances one page per good page and stops at the
first page with empty records or no next-page flag, independent of the
remaining fuel. -/
theorem paginateFuel_trace (server : Nat → Page) :
    ∀ (m p fuel : Nat), m + 1 ≤ fuel →
      (∀ k, p ≤ k → k < p + m →
        (server k).Records.isEmpty = false ∧ (server k).HasNextPage = true) →
      ((server (p + m)).Records.isEmpty = true ∨ (server (p + m)).HasNextPage = false) →
      (paginateFuel server p fuel).2 = List.range' p (m + 1) := by
  intro m
  induction m with
  | zero =>
    intro p fuel hf hbefore hstop
    obtain ⟨f, rfl⟩ : ∃ f, fuel = f + 1 := ⟨fuel - 1, by omega⟩
    simp only [Nat.add_zero] at hstop
    rcases hstop with h | h
    · simp [paginateFuel, h, List.range']
    · by_cases he : (server p).Records.isEmpty
      · simp [paginateFuel, he, List.range']
      · simp [paginateFuel, he, h, List.range']
  | succ m ih =>
    intro p fuel hf hbefore hstop
    obtain ⟨f, rfl⟩ : ∃ f, fuel = f + 1 := ⟨fuel - 1, by omega⟩
    have hp := hbefore p (Nat.le_refl p) (by omega)
    have hrest :
        (paginateFuel server (p + 1) f).2 = List.range' (p + 1) (m + 1) := by
      refine ih (p + 1) f (by omega) ?_ ?_
      · intro k hk1 hk2
        exact hbefore k (by omega) (by omega)
      · have : p + 1 + m = p + (m + 1) := by omega
        rw [this]
        exact hstop
    simp only [paginateFuel, hp.1, hp.2, Bool.not_true, if_false]
    rw [hrest]
    rfl

/-- C5: pagination termination — once some page `n` has an empty
`Records` list or a false `HasNextPage` (both conditions are checked),
`paginate`/`get_all` requests exactly pages 1..n, for every fuel bound of
at least n: the trace is fuel-invariant, so no further request and no
infinite loop occurs even when `HasNextPage` stays true forever. -/
theorem c5_pagination_termination (server : Nat → Page) (n : Nat) (h1 : 1 ≤ n)
    (hbefore : ∀ k, 1 ≤ k → k < n →
      (server k).Records.isEmpty = false ∧ (server k).HasNextPage = true)
    (hstop : (server n).Records.isEmpty = true ∨ (server n).HasNextPage = false) :
    ∀ fuel, n ≤ fuel → requested_pages server fuel = List.range' 1 n := by
  intro fuel hf
  have hn : 1 + (n - 1) = n := by omega
  have := paginateFuel_trace server (n - 1) 1 fuel (by omega)
    (by intro k hk1 hk2; exact hbefore k hk1 (by omega))
    (by rw [hn]; exact hstop)
  rw [requested_pages, this]
  congr 1
  omega

/-- C5 witness: the spec scenario — `HasNextPage: true` forever, empty
`Records` on page 3 — stops after exactly pages 1, 2, 3. -/
theorem c5_pagination_termination_witness :
    requested_pages c5Server 10 = [1, 2, 3] :=
  c5_pagination_termination c5Server 3 (by decide)
    (by
      intro k hk1 hk2
      interval_cases k <;> exact ⟨rfl, rfl⟩)
    (Or.inl rfl)
    10 (by decide)

/-- A successful attempt returns its payload at once: one attempt, no
sleep. -/
theorem getAttempts_success (outcomes : Nat → AttemptOutcome) (k b : Nat) (p : Val)
    (h : outcomes k = .success p) :
    getAttempts outcomes k (b + 1) = ⟨.ok p, 1, []⟩ := by
  simp [getAttempts, h]

/-- A retryable failure with budget remaining sleeps (Retry-After, then
the exponential backoff) and defers to the next attempt. -/
theorem getAttempts_retry (outcomes : Nat → AttemptOutcome) (k b : Nat)
    (hr : _is_retryable (outcomes k) = true) (hb : b ≠ 0) :
    getAttempts outcomes k (b + 1) =
      ⟨(getAttempts outcomes (k + 1) b).result,
       (getAttempts outcomes (k + 1) b).attempts + 1,
       retryAfterSleep (outcomes k) ++
         wait_exponential k :: (getAttempts outcomes (k + 1) b).sleeps⟩ := by
  have hb2 : (b != 0) = true := by simpa using hb
  cases h : outcomes k with
  | success p => rw [h] at hr; simp [_is_retryable] at hr
  | httpError s ra => rw [h] at hr; simp [getAttempts, h, hr, hb2]
  | connError => simp [getAttempts, h, _is_retryable, hb2]
  | timeoutError => simp [getAttempts, h, _is_retryable, hb2]

/-- A non-retryable failure propagates at once, with only the in-request
Retry-After sleep (only a 429 has one, and a 429 is retryable, so in fact
none). -/
theorem getAttempts_halt (outcomes : Nat → AttemptOutcome) (k b : Nat)
    (hr : _is_retryable (outcomes k) = false)
    (hne : ∀ p, outcomes k ≠ .success p) :
    getAttempts outcomes k (b + 1) =
      ⟨.error (outcomes k), 1, retryAfterSleep (outcomes k)⟩ := by
  cases h : outcomes k with
  | success p => exact absurd h (hne p)
  | httpError s ra => rw [h] at hr; simp [getAttempts, h, hr]
  | connError => rw [h] at hr; simp [_is_retryable] at hr
  | timeoutError => rw [h] at hr; simp [_is_retryable] at hr

/-- With the attempt budget exhausted, a failed attempt propagates even
when retryable. -/
theorem getAttempts_last (outcomes : Nat → AttemptOutcome) (k : Nat)
    (hne : ∀ p, outcomes k ≠ .success p) :
    getAttempts outcomes k 1 = ⟨.error (outcomes k), 1, retryAfterSleep (outcomes k)⟩ := by
  show getAttempts outcomes k (0 + 1) = _
  cases h : outcomes k with
  | success p => exact absurd h (hne p)
  | httpError s ra => simp [getAttempts, h]
  | connError => simp [getAttempts, h]
  | timeoutError => simp [getAttempts, h]

/-- C7: Retry-After on 429 — when attempt 1 returns 429 with a
`Retry-After` header and attempt 2 succeeds, the client sleeps the full
server-supplied delay (ahead of the backoff wait, so the total wait before
the second attempt is at least `Retry-After` seconds regardless of the
exponential schedule) and the successful payload is returned. -/
theorem c7_retry_after_precedence (outcomes : Nat → AttemptOutcome) (ra : Nat) (p : Val)
    (h1 : outcomes 1 = .httpError 429 (some ra)) (h2 : outcomes 2 = .success p) :
    (nexudus_get outcomes).result = .ok p ∧
    (nexudus_get outcomes).attempts = 2 ∧
    (nexudus_get outcomes).sleeps = [ra, wait_exponential 1] ∧
    ra ≤ (nexudus_get outcomes).sleeps.sum := by
  have h1r : _is_retryable (outcomes 1) = true := by rw [h1]; rfl
  have e2 : getAttempts outcomes 2 4 = ⟨.ok p, 1, []⟩ :=
    getAttempts_success outcomes 2 3 p h2
  have e : nexudus_get outcomes = ⟨.ok p, 2, [ra, wait_exponential 1]⟩ := by
    show getAttempts outcomes 1 (4 + 1) = _
    rw [getAttempts_retry outcomes 1 4 h1r (by decide), e2, h1]
    simp [retryAfterSleep]
  rw [e]
  refine ⟨rfl, rfl, rfl, ?_⟩
  simp

/-- C7 witness: the spec scenario — 429 with `Retry-After: 2`, then 200 —
waits 2 s then the 4 s backoff and returns the payload. -/
theorem c7_retry_after_precedence_witness :
    (nexudus_get c7Outcomes).result = .ok (.vstr "payload") ∧
    (nexudus_get c7Outcomes).attempts = 2 ∧
    (nexudus_get c7Outcomes).sleeps = [2, wait_exponential 1] ∧
    2 ≤ (nexudus_get c7Outcomes).sleeps.sum :=
  c7_retry_after_precedence c7Outcomes 2 (.vstr "payload") rfl rfl

/-- The attempt counter never exceeds the budget. -/
theorem getAttempts_attempts_le (outcomes : Nat → AttemptOutcome) :
    ∀ (b k : Nat), (getAttempts outcomes k b).attempts ≤ b := by
  intro b
  induction b with
  | zero => intro k; simp [getAttempts]
  | succ b ih =>
    intro k
    by_cases hs : ∃ p, outcomes k = .success p
    · obtain ⟨p, hp⟩ := hs
      rw [getAttempts_success outcomes k b p hp]
      simp
    · have hne : ∀ p, outcomes k ≠ .success p := fun p hp => hs ⟨p, hp⟩
      by_cases hr : _is_retryable (outcomes k) = true
      · cases b with
        | zero =>
          rw [getAttempts_last outcomes k hne]
        | succ b2 =>
          rw [getAttempts_retry outcomes k (b2 + 1) hr (by omega)]
          have := ih (k + 1)
          simp only []
          omega
      · rw [getAttempts_halt outcomes k b (by simpa using hr) hne]
        simp

/-- A failure that is not retryable carries no Retry-After sleep: only a
429 sleeps in-request, and a 429 is retryable. -/
theorem retryAfterSleep_of_not_retryable (f : AttemptOutcome)
    (h : _is_retryable f = false) : retryAfterSleep f = [] := by
  cases f with
  | success _ => rfl
  | connError => simp [_is_retryable] at h
  | timeoutError => simp [_is_retryable] at h
  | httpError s ra =>
    rcases eq_or_ne s 429 with rfl | hs
    · simp [_is_retryable] at h
    · unfold retryAfterSleep
      split
      · next x heq =>
        injection heq with hs2 hra
        exact absurd hs2 hs
      · rfl

/-- Running the retry loop across `m` retryable failures adds `m` to the
attempt count and emits, per failed attempt `j`, its Retry-After sleep
followed by the exponential wait `wait_exponential j`. -/
theorem getAttempts_advance (outcomes : Nat → AttemptOutcome) :
    ∀ (m k budget : Nat), m < budget →
      (∀ j, k ≤ j → j < k + m → _is_retryable (outcomes j) = true) →
      getAttempts outcomes k budget =
        ⟨(getAttempts outcomes (k + m) (budget - m)).result,
         (getAttempts outcomes (k + m) (budget - m)).attempts + m,
         (List.range' k m).flatMap
             (fun j => retryAfterSleep (outcomes j) ++ [wait_exponential j]) ++
           (getAttempts outcomes (k + m) (budget - m)).sleeps⟩ := by
  intro m
  induction m with
  | zero =>
    intro k budget hb hall
    simp [List.range']
  | succ m ih =>
    intro k budget hb hall
    obtain ⟨b, rfl⟩ : ∃ b, budget = b + 1 := ⟨budget - 1, by omega⟩
    have hk : _is_retryable (outcomes k) = true := hall k le_rfl (by omega)
    have hfail : ∀ p, outcomes k ≠ .success p := by
      intro p hp
      rw [hp] at hk
      simp [_is_retryable] at hk
    have hbne : b ≠ 0 := by omega
    rw [getAttempts_retry outcomes k b hk hbne]
    have ihh := ih (k + 1) b (by omega) (by intro j hj1 hj2; exact hall j (by omega) (by omega))
    rw [ihh]
    have h1 : k + 1 + m = k + (m + 1) := by omega
    have h2 : b - m = b + 1 - (m + 1) := by omega
    rw [h1, h2]
    have h3 : List.range' k (m + 1) = k :: List.range' (k + 1) m := rfl
    rw [h3, List.flatMap_cons]
    simp [List.append_assoc, Nat.add_assoc]

/-- C6: retry classification and ceiling — after any run of retryable
failures (HTTP 429/500/502/503/504, connection or timeout errors) the
client makes at most 5 attempts in total; a non-retryable outcome at
attempt `n` ends the call there (a success returns its payload, any other
non-2xx propagates immediately with no further attempt), with the sleeps
being exactly, per failed attempt `j`, its optional Retry-After sleep
followed by the exponential wait `wait_exponential j` (4 s doubling,
capped at 60 s); five retryable failures exhaust the budget and propagate
the last failure. -/
theorem c6_retry_classification (outcomes : Nat → AttemptOutcome) (n : Nat)
    (h1 : 1 ≤ n) (h5 : n ≤ 5)
    (hprev : ∀ j, 1 ≤ j → j < n → _is_retryable (outcomes j) = true) :
    (nexudus_get outcomes).attempts ≤ 5 ∧
    (_is_retryable (outcomes n) = false →
      (nexudus_get outcomes).attempts = n ∧
      (∀ p, outcomes n = .success p → (nexudus_get outcomes).result = .ok p) ∧
      ((∀ p, outcomes n ≠ .success p) →
        (nexudus_get outcomes).result = .error (outcomes n)) ∧
      (nexudus_get outcomes).sleeps =
        (List.range' 1 (n - 1)).flatMap
          (fun j => retryAfterSleep (outcomes j) ++ [wait_exponential j])) ∧
    (n = 5 → _is_retryable (outcomes 5) = true →
      (nexudus_get outcomes).attempts = 5 ∧
      (nexudus_get outcomes).result = .error (outcomes 5) ∧
      (nexudus_get outcomes).sleeps =
        (List.range' 1 4).flatMap
          (fun j => retryAfterSleep (outcomes j) ++ [wait_exponential j]) ++
          retryAfterSleep (outcomes 5)) := by
  have hadv := getAttempts_advance outcomes (n - 1) 1 5 (by omega)
    (by intro j hj1 hj2; exact hprev j hj1 (by omega))
  have hn1 : 1 + (n - 1) = n := by omega
  rw [hn1] at hadv
  have hget : nexudus_get outcomes = _ := hadv
  obtain ⟨b2, hb2⟩ : ∃ b2, 5 - (n - 1) = b2 + 1 := ⟨5 - (n - 1) - 1, by omega⟩
  refine ⟨?_, ?_, ?_⟩
  · rw [hget]
    have := getAttempts_attempts_le outcomes (5 - (n - 1)) n
    simp only []
    omega
  · intro hstop
    have htail : (getAttempts outcomes n (5 - (n - 1))).attempts = 1 ∧
        (∀ p, outcomes n = .success p →
          (getAttempts outcomes n (5 - (n - 1))).result = .ok p) ∧
        ((∀ p, outcomes n ≠ .success p) →
          (getAttempts outcomes n (5 - (n - 1))).result = .error (outcomes n)) ∧
        (getAttempts outcomes n (5 - (n - 1))).sleeps = [] := by
      by_cases hs : ∃ p, outcomes n = .success p
      · obtain ⟨p, hp⟩ := hs
        rw [hb2, getAttempts_success outcomes n b2 p hp]
        refine ⟨rfl, ?_, ?_, rfl⟩
        · intro q hq
          rw [hp] at hq
          injection hq with hq2
          rw [hq2]
        · intro hne
          exact absurd hp (hne p)
      · have hne : ∀ p, outcomes n ≠ .success p := fun p hp => hs ⟨p, hp⟩
        rw [hb2, getAttempts_halt outcomes n b2 hstop hne]
        exact ⟨rfl, by intro p hp; exact absurd hp (hne p), fun _ => rfl,
          retryAfterSleep_of_not_retryable _ hstop⟩
    refine ⟨?_, ?_, ?_, ?_⟩
    · rw [hget]
      show (getAttempts outcomes n (5 - (n - 1))).attempts + (n - 1) = n
      rw [htail.1]
      omega
    · intro p hp
      rw [hget]
      exact htail.2.1 p hp
    · intro hne
      rw [hget]
      exact htail.2.2.1 hne
    · rw [hget]
      show (List.range' 1 (n - 1)).flatMap _ ++
          (getAttempts outcomes n (5 - (n - 1))).sleeps = _
      rw [htail.2.2.2, List.append_nil]
  · intro hn5 hr
    subst hn5
    have hne : ∀ p, outcomes 5 ≠ .success p := by
      intro p hp
      rw [hp] at hr
      simp [_is_retryable] at hr
    have hone : (5 : Nat) - (5 - 1) = 0 + 1 := rfl
    rw [hone] at hget
    rw [getAttempts_last outcomes 5 hne] at hget
    rw [hget]
    exact ⟨rfl, rfl, rfl⟩

/-- C6 witness: a 500 then a 403 — one retry with the 4 s base backoff,
then immediate propagation of the 403 with no further attempt. -/
theorem c6_retry_classification_witness :
    (nexudus_get c6Outcomes).attempts ≤ 5 ∧
    (nexudus_get c6Outcomes).attempts = 2 ∧
    (nexudus_get c6Outcomes).result = .error (.httpError 403 none) ∧
    (nexudus_get c6Outcomes).sleeps = [4] := by
  have h := c6_retry_classification c6Outcomes 2 (by decide) (by decide)
    (by intro j hj1 hj2; interval_cases j; rfl)
  have h2 := h.2.1 rfl
  refine ⟨h.1, h2.1, ?_, ?_⟩
  · have herr := h2.2.2.1 (by intro p hp; simp [c6Outcomes] at hp)
    rw [herr]
    rfl
  · rw [h2.2.2.2]
    rfl

/-- C4: Run Tracker finalization — a tracked scope over a table with no
row for the fresh run id leaves exactly one row carrying that id, holding
the terminal status (`success` without an exception, `failed` with the
non-null message otherwise), the finish time and the final counters;
every pre-existing row survives untouched, and the body exception, when
present, propagates unchanged to the caller. -/
theorem c4_run_tracker_finalization
    (runId source entity layer tb : String) (metadata : Option String)
    (started finished : Nat) (body : Counters × Option String) (table : List RunRecord)
    (hfresh : ∀ r ∈ table, r.id ≠ runId) :
    (runTrackerScope runId source entity layer tb metadata started finished body table).1.filter
        (fun r => r.id == runId) =
      [{ id := runId, source_name := source, entity := entity, layer := layer,
         status := if body.2.isNone then "success" else "failed",
         started_at := started, finished_at := some finished,
         rows_read := body.1.rows_read, rows_written := body.1.rows_written,
         rows_skipped := body.1.rows_skipped,
         error_message := body.2, triggered_by := tb, metadata := metadata }] ∧
    (∀ r ∈ table,
      r ∈ (runTrackerScope runId source entity layer tb metadata started finished body table).1) ∧
    (runTrackerScope runId source entity layer tb metadata started finished body table).2 =
      body.2 := by
  have hmap :
      (runTrackerScope runId source entity layer tb metadata started finished body table).1 =
        table ++
          [{ id := runId, source_name := source, entity := entity, layer := layer,
             status := if body.2.isNone then "success" else "failed",
             started_at := started, finished_at := some finished,
             rows_read := body.1.rows_read, rows_written := body.1.rows_written,
             rows_skipped := body.1.rows_skipped,
             error_message := body.2, triggered_by := tb, metadata := metadata }] := by
    simp only [runTrackerScope, runTrackerEnter, runTrackerExit, List.map_append]
    congr 1
    · have hall : ∀ r ∈ table,
          (fun r => if r.id == runId then
            { r with status := if body.2.isNone then "success" else "failed"
                     finished_at := some finished
                     rows_read := body.1.rows_read
                     rows_written := body.1.rows_written
                     rows_skipped := body.1.rows_skipped
                     error_message := body.2 }
          else r) r = r := by
        intro r hr
        have : (r.id == runId) = false := by simpa using hfresh r hr
        simp [this]
      rw [List.map_congr_left hall]
      simp
    · simp
  refine ⟨?_, ?_, rfl⟩
  · rw [hmap, List.filter_append]
    have h1 : table.filter (fun r => r.id == runId) = [] := by
      apply List.filter_eq_nil_iff.mpr
      intro r hr
      simpa using hfresh r hr
    rw [h1]
    simp
  · intro r hr
    rw [hmap]
    exact List.mem_append_left _ hr

/-- The TOP 1 pick always returns a member of its row list. -/
theorem pickLatest_mem : ∀ (l : List BronzeRow) (b : BronzeRow),
    pickLatest l = some b → b ∈ l := by
  intro l
  induction l with
  | nil => intro b h; cases h
  | cons t rest ih =>
    intro b h
    simp only [pickLatest] at h
    cases hr : pickLatest rest with
    | none =>
      rw [hr] at h
      injection h with h2
      subst h2
      exact List.mem_cons_self t rest
    | some c =>
      rw [hr] at h
      injection h with h2
      subst h2
      show betterOf t c ∈ t :: rest
      by_cases hl : laterRow t c = true
      · have hc : betterOf t c = c := by unfold betterOf; rw [if_pos hl]
        rw [hc]
        exact List.mem_cons_of_mem _ (ih c hr)
      · have hc : betterOf t c = t := by unfold betterOf; rw [if_neg hl]
        rw [hc]
        exact List.mem_cons_self t rest

/-- The TOP 1 pick of a nonempty row list exists. -/
theorem pickLatest_isSome (l : List BronzeRow) (h : l ≠ []) :
    ∃ b, pickLatest l = some b := by
  cases l with
  | nil => exact absurd rfl h
  | cons t rest => exact ⟨_, rfl⟩

/-- The SQL option equality against a concrete id, propositionally. -/
theorem sqlEqOpt_true_iff (a : Option Int) (s : Int) :
    sqlEqOpt a (some s) = true ↔ a = some s := by
  cases a <;> simp [sqlEqOpt]

/-- The merge ordering, propositionally: `b` sorts strictly before `a`. -/
theorem laterRow_true_iff (a b : BronzeRow) :
    laterRow a b = true ↔
      (a.synced_at < b.synced_at ∨ (a.synced_at = b.synced_at ∧ a.id < b.id)) := by
  simp [laterRow]
  omega

/-- The merge ordering, negated: `b` does not sort before `a` exactly when
`b` is strictly older or ties with an id at most `a`'s. -/
theorem laterRow_false_iff (a b : BronzeRow) :
    laterRow a b = false ↔
      (b.synced_at < a.synced_at ∨ (b.synced_at = a.synced_at ∧ b.id ≤ a.id)) := by
  simp [laterRow, Bool.or_eq_false_iff]
  omega

/-- The TOP 1 pick is empty only on the empty row list. -/
theorem pickLatest_eq_none (l : List BronzeRow) (h : pickLatest l = none) : l = [] := by
  cases l with
  | nil => rfl
  | cons t rest => simp [pickLatest] at h

/-- The TOP 1 pick is maximal for `ORDER BY synced_at DESC, id DESC`: no
row of the list sorts before it. -/
theorem pickLatest_max : ∀ (l : List BronzeRow) (b : BronzeRow),
    pickLatest l = some b → ∀ u ∈ l, laterRow b u = false := by
  intro l
  induction l with
  | nil => intro b h; cases h
  | cons t rest ih =>
    intro b h u hu
    simp only [pickLatest] at h
    cases hr : pickLatest rest with
    | none =>
      rw [hr] at h
      injection h with h2
      have h3 : t = b := h2
      have hrest : rest = [] := pickLatest_eq_none rest hr
      subst hrest
      rw [List.mem_singleton] at hu
      subst hu
      rw [← h3, laterRow_false_iff]
      omega
    | some c =>
      rw [hr] at h
      injection h with h2
      have h3 : betterOf t c = b := h2
      rcases List.mem_cons.mp hu with heq | hurest
      · rw [← h3, heq]
        unfold betterOf
        by_cases hl : laterRow t c = true
        · rw [if_pos hl, laterRow_false_iff]
          rw [laterRow_true_iff] at hl
          omega
        · rw [if_neg hl, laterRow_false_iff]
          omega
      · have hcu := ih c hr u hurest
        rw [← h3]
        unfold betterOf
        by_cases hl : laterRow t c = true
        · rw [if_pos hl]
          exact hcu
        · rw [if_neg hl]
          have hlf : laterRow t c = false := by
            cases hb2 : laterRow t c
            · rfl
            · exact absurd hb2 hl
          rw [laterRow_false_iff] at hcu hlf ⊢
          omega

/-- One MERGE execution never grows a source id's row population beyond
one: the matched update keeps `source_id` untouched, and an insert for a
given id only happens when that id has no row. -/
theorem mergeLocRow_count_le (run : String) (now : Nat) (store : List BronzeRow)
    (row : Option Int × Val) (sid : Int) :
    ((mergeLocRow run now store row).filter (fun t => sqlEqOpt t.source_id (some sid))).length ≤
      max 1 ((store.filter (fun t => sqlEqOpt t.source_id (some sid))).length) := by
  unfold mergeLocRow
  cases htid : latestTargetId store row.1 with
  | some tid =>
    have heq : ((store.map (fun t => if t.id == tid then { t with sync_run_id := run, raw := row.2, synced_at := now } else t)).filter (fun t => sqlEqOpt t.source_id (some sid))).length = (store.filter (fun t => sqlEqOpt t.source_id (some sid))).length := by
      rw [← List.countP_eq_length_filter, ← List.countP_eq_length_filter, List.countP_map]
      apply List.countP_congr
      intro t ht
      simp only [Function.comp]
      by_cases h : t.id = tid
      · simp [h]
      · simp [h]
    rw [heq]
    exact le_max_right _ _
  | none =>
    rw [List.filter_append]
    by_cases hns : sqlEqOpt row.1 (some sid) = true
    · have hfil0 : store.filter (fun t => sqlEqOpt t.source_id row.1) = [] := by
        cases hpl : pickLatest (store.filter (fun t => sqlEqOpt t.source_id row.1)) with
        | none => exact pickLatest_eq_none _ hpl
        | some c =>
          exfalso
          unfold latestTargetId at htid
          rw [hpl] at htid
          cases htid
      have hrow : row.1 = some sid := (sqlEqOpt_true_iff _ _).mp hns
      have hfil0b : store.filter (fun t => sqlEqOpt t.source_id (some sid)) = [] := by
        rw [← hrow]
        exact hfil0
      rw [hfil0b]
      simp [hns]
    · have hnf : sqlEqOpt row.1 (some sid) = false := by
        cases hb2 : sqlEqOpt row.1 (some sid)
        · rfl
        · exact absurd hb2 hns
      have hsing : (([{ id := nextBronzeId store, sync_run_id := run, source_id := row.1, raw := row.2, synced_at := now }] : List BronzeRow).filter (fun t => sqlEqOpt t.source_id (some sid))) = [] := by
        simp [hnf]
      rw [hsing, List.append_nil]
      exact le_max_right _ _

/-- Folding MERGE executions over a batch never grows a source id's row
population beyond one. -/
theorem mergeFold_count_le (run : String) (now : Nat) (sid : Int) :
    ∀ (rows : List (Option Int × Val)) (store : List BronzeRow),
      ((rows.foldl (mergeLocRow run now) store).filter
          (fun t => sqlEqOpt t.source_id (some sid))).length ≤
        max 1 ((store.filter (fun t => sqlEqOpt t.source_id (some sid))).length) := by
  intro rows
  induction rows with
  | nil => intro store; exact le_max_right _ _
  | cons r rest ih =>
    intro store
    simp only [List.foldl_cons]
    have h1 := ih (mergeLocRow run now store r)
    have h2 := mergeLocRow_count_le run now store r sid
    omega

/-- One `write_locations` call never grows a source id's row population
beyond one. -/
theorem write_locations_count_le (run : String) (now : Nat) (store : List BronzeRow)
    (records : List Payload) (sid : Int) :
    (((write_locations run now store records).store).filter
        (fun t => sqlEqOpt t.source_id (some sid))).length ≤
      max 1 ((store.filter (fun t => sqlEqOpt t.source_id (some sid))).length) := by
  unfold write_locations _batch_upsert
  by_cases he : (records.map (fun r => (extractSourceId r, Val.vdict r))).isEmpty = true
  · rw [if_pos he]
    exact le_max_right _ _
  · rw [if_neg he]
    exact mergeFold_count_le run now sid _ store

/-- A table holding at most one row per source id keeps that property
across any sequence of `write_locations` runs. -/
theorem runs_fold_count_le (sid : Int) :
    ∀ (runsList : List (String × Nat × List Payload)) (store : List BronzeRow),
      ((store.filter (fun t => sqlEqOpt t.source_id (some sid))).length ≤ 1) →
      (((runsList.foldl (fun st pr => (write_locations pr.1 pr.2.1 st pr.2.2).store)
            store).filter (fun t => sqlEqOpt t.source_id (some sid))).length ≤ 1) := by
  intro runsList
  induction runsList with
  | nil => intro store h; exact h
  | cons pr rest ih =>
    intro store h
    simp only [List.foldl_cons]
    apply ih
    have := write_locations_count_le pr.1 pr.2.1 store pr.2.2 sid
    omega

/-- C1 (amended): the bronze writer is an upsert, not an append — one
MERGE execution never deletes a row (every existing id survives); it
appends a fresh row tagged with the run id exactly when no existing row
shares the record's non-null `source_id`; when some row does share it,
the table size is unchanged and the result is exactly the table with the
most recent matching row — greatest `synced_at`, then greatest `id` —
rewritten in place with the new run id, payload and capture time; and a
table holding at most one row for a natural id (an empty table in
particular) keeps at most one row for it across any sequence of
`write_locations` runs, so this writer accumulates no per-id history. -/
theorem c1_bronze_merge_upsert (run : String) (now : Nat) (store : List BronzeRow)
    (row : Option Int × Val) :
    (∀ t ∈ store, ∃ u ∈ mergeLocRow run now store row, u.id = t.id) ∧
    ((∀ t ∈ store, sqlEqOpt t.source_id row.1 = false) →
      mergeLocRow run now store row =
        store ++ [{ id := nextBronzeId store, sync_run_id := run, source_id := row.1,
                    raw := row.2, synced_at := now }]) ∧
    ((∃ t ∈ store, sqlEqOpt t.source_id row.1 = true) →
      (mergeLocRow run now store row).length = store.length ∧
      ∃ t ∈ store, sqlEqOpt t.source_id row.1 = true ∧
        (∀ u ∈ store, sqlEqOpt u.source_id row.1 = true →
          u.synced_at < t.synced_at ∨ (u.synced_at = t.synced_at ∧ u.id ≤ t.id)) ∧
        mergeLocRow run now store row =
          store.map (fun u => if u.id == t.id then
            { u with sync_run_id := run, raw := row.2, synced_at := now } else u)) ∧
    (∀ (sid : Int) (runsList : List (String × Nat × List Payload)),
      ((store.filter (fun t => sqlEqOpt t.source_id (some sid))).length ≤ 1) →
      (((runsList.foldl (fun st pr => (write_locations pr.1 pr.2.1 st pr.2.2).store)
            store).filter (fun t => sqlEqOpt t.source_id (some sid))).length ≤ 1)) := by
  refine ⟨?_, ?_, ?_, ?_⟩
  · intro t ht
    unfold mergeLocRow
    cases htid : latestTargetId store row.1 with
    | none => exact ⟨t, List.mem_append_left _ ht, rfl⟩
    | some tid =>
      refine ⟨if t.id == tid then
          { t with sync_run_id := run, raw := row.2, synced_at := now } else t,
        List.mem_map_of_mem _ ht, ?_⟩
      by_cases hid : t.id == tid
      · simp [hid]
      · simp [hid]
  · intro hnone
    have hfil : store.filter (fun t => sqlEqOpt t.source_id row.1) = [] :=
      List.filter_eq_nil_iff.mpr (by intro t ht; simp [hnone t ht])
    unfold mergeLocRow latestTargetId
    rw [hfil]
    rfl
  · rintro ⟨t0, ht0, hm0⟩
    have hfil : t0 ∈ store.filter (fun t => sqlEqOpt t.source_id row.1) :=
      List.mem_filter.mpr ⟨ht0, hm0⟩
    obtain ⟨b, hb⟩ := pickLatest_isSome (store.filter (fun t => sqlEqOpt t.source_id row.1))
      (by intro hnil; rw [hnil] at hfil; cases hfil)
    have hbmem := pickLatest_mem _ _ hb
    have hbstore : b ∈ store := (List.mem_filter.mp hbmem).1
    have hbmatch : sqlEqOpt b.source_id row.1 = true := (List.mem_filter.mp hbmem).2
    have htid : latestTargetId store row.1 = some b.id := by
      unfold latestTargetId
      rw [hb]
      rfl
    have hres : mergeLocRow run now store row =
        store.map (fun u => if u.id == b.id then
          { u with sync_run_id := run, raw := row.2, synced_at := now } else u) := by
      unfold mergeLocRow
      rw [htid]
    refine ⟨by rw [hres]; exact List.length_map _ _, b, hbstore, hbmatch, ?_, hres⟩
    intro u hu hum
    have h2 := pickLatest_max _ _ hb u (List.mem_filter.mpr ⟨hu, hum⟩)
    rw [laterRow_false_iff] at h2
    omega
  · intro sid runsList h
    exact runs_fold_count_le sid runsList store h

/-- C1 (amended) witness: on a table holding natural id 7, re-writing id 7
rewrites exactly the single (hence latest) matching row in place; on an
empty table the same record appends; and a further run over the resulting
table still leaves at most one row for id 7. -/
theorem c1_bronze_merge_upsert_witness :
    (mergeLocRow "runB" 20 c1Store (some 7, Val.vdict c1Record)).length = c1Store.length ∧
    (∃ t ∈ c1Store, sqlEqOpt t.source_id (some 7) = true ∧
      (∀ u ∈ c1Store, sqlEqOpt u.source_id (some 7) = true →
        u.synced_at < t.synced_at ∨ (u.synced_at = t.synced_at ∧ u.id ≤ t.id)) ∧
      mergeLocRow "runB" 20 c1Store (some 7, Val.vdict c1Record) =
        c1Store.map (fun u => if u.id == t.id then
          { u with sync_run_id := "runB", raw := Val.vdict c1Record, synced_at := 20 } else u)) ∧
    mergeLocRow "runB" 20 [] (some 7, Val.vdict c1Record) =
      [] ++ [{ id := nextBronzeId [], sync_run_id := "runB", source_id := some 7,
               raw := Val.vdict c1Record, synced_at := 20 }] ∧
    (([("runC", 30, [c1Record])].foldl
        (fun st pr => (write_locations pr.1 pr.2.1 st pr.2.2).store) c1Store).filter
        (fun t => sqlEqOpt t.source_id (some 7))).length ≤ 1 := by
  have h := c1_bronze_merge_upsert "runB" 20 c1Store (some 7, Val.vdict c1Record)
  have h0 := c1_bronze_merge_upsert "runB" 20 [] (some 7, Val.vdict c1Record)
  have hex : ∃ t ∈ c1Store, sqlEqOpt t.source_id (some 7) = true := by
    refine ⟨{ id := 1, sync_run_id := "runA", source_id := some 7,
              raw := .vdict [("Id", .vint 7), ("Name", .vstr "Old")], synced_at := 10 },
        ?_, by decide⟩
    decide
  refine ⟨(h.2.2.1 hex).1, (h.2.2.1 hex).2, h0.2.1 (by intro t ht; cases ht), ?_⟩
  exact h.2.2.2 7 [("runC", 30, [c1Record])] (by decide)

/-- C1 counterexample: after run A captured natural id 7, run B writing
the same id leaves a single rewritten row — the run A row is gone, so the
bronze write is not append-only and per-id history is not preserved. -/
theorem c1_bronze_append_only_counterexample :
    (write_locations "runB" 20 c1Store [c1Record]).store =
      [{ id := 1, sync_run_id := "runB", source_id := some 7,
         raw := .vdict [("Id", .vint 7), ("Name", .vstr "New")], synced_at := 20 }] ∧
    ({ id := 1, sync_run_id := "runA", source_id := some 7,
       raw := .vdict [("Id", .vint 7), ("Name", .vstr "Old")], synced_at := 10 } : BronzeRow) ∉
      (write_locations "runB" 20 c1Store [c1Record]).store := by
  decide

/-- The grouped-maximum fold returns `v` whenever `v` is attained among
the matching rows (or carried by the accumulator) and bounds them all. -/
theorem maxSyncedFold_eq (sid : Int) (v : Nat) :
    ∀ (l : List BronzeRow) (acc : Option Nat),
      ((∃ t ∈ l, sqlEqOpt t.source_id (some sid) = true ∧ t.synced_at = v) ∨ acc = some v) →
      (∀ t ∈ l, sqlEqOpt t.source_id (some sid) = true → t.synced_at ≤ v) →
      (∀ a, acc = some a → a ≤ v) →
      l.foldl (fun acc t =>
        if sqlEqOpt t.source_id (some sid) then
          match acc with
          | none => some t.synced_at
          | some m => some (max m t.synced_at)
        else acc) acc = some v := by
  intro l
  induction l with
  | nil =>
    intro acc hex hub hacc
    rcases hex with ⟨t, ht, _⟩ | hacc2
    · cases ht
    · simpa using hacc2
  | cons t rest ih =>
    intro acc hex hub hacc
    simp only [List.foldl_cons]
    by_cases hm : sqlEqOpt t.source_id (some sid) = true
    · rw [if_pos hm]
      cases acc with
      | none =>
        apply ih
        · rcases hex with ⟨u, hu, hum, huv⟩ | hacc2
          · rcases List.mem_cons.mp hu with heq | hurest
            · right
              have hv : t.synced_at = v := heq ▸ huv
              exact congrArg some hv
            · left
              exact ⟨u, hurest, hum, huv⟩
          · cases hacc2
        · intro u hu hum
          exact hub u (List.mem_cons_of_mem _ hu) hum
        · intro a ha
          have ha2 : some t.synced_at = some a := ha
          injection ha2 with ha3
          rw [← ha3]
          exact hub t (List.mem_cons_self _ _) hm
      | some m =>
        have hmv : m ≤ v := hacc m rfl
        have htv : t.synced_at ≤ v := hub t (List.mem_cons_self _ _) hm
        apply ih
        · rcases hex with ⟨u, hu, hum, huv⟩ | hacc2
          · rcases List.mem_cons.mp hu with heq | hurest
            · right
              have hv : t.synced_at = v := heq ▸ huv
              exact congrArg some (by omega)
            · left
              exact ⟨u, hurest, hum, huv⟩
          · right
            injection hacc2 with h2
            exact congrArg some (by omega)
        · intro u hu hum
          exact hub u (List.mem_cons_of_mem _ hu) hum
        · intro a ha
          have ha2 : some (max m t.synced_at) = some a := ha
          injection ha2 with ha3
          rw [← ha3]
          exact Nat.max_le.mpr ⟨hmv, htv⟩
    · rw [if_neg hm]
      apply ih
      · rcases hex with ⟨u, hu, hum, huv⟩ | hacc2
        · rcases List.mem_cons.mp hu with heq | hurest
          · rw [heq] at hum
            exact absurd hum hm
          · left
            exact ⟨u, hurest, hum, huv⟩
        · right
          exact hacc2
      · intro u hu hum
        exact hub u (List.mem_cons_of_mem _ hu) hum
      · exact hacc

/-- The per-id grouped maximum equals any attained upper bound of the
matching rows. -/
theorem maxSyncedFor_eq (bronze : List BronzeRow) (sid : Int) (v : Nat)
    (hex : ∃ t ∈ bronze, sqlEqOpt t.source_id (some sid) = true ∧ t.synced_at = v)
    (hub : ∀ t ∈ bronze, sqlEqOpt t.source_id (some sid) = true → t.synced_at ≤ v) :
    maxSyncedFor bronze sid = some v :=
  maxSyncedFold_eq sid v bronze none (Or.inl hex) hub (by intro a h; cases h)

/-- A filter whose predicate holds exactly at one element of a
key-distinct list collapses to that singleton. -/
theorem filter_eq_singleton_of_unique {α β : Type} (l : List α) (p : α → Bool)
    (f : α → β) (b : α) (hnd : (l.map f).Nodup) (hb : b ∈ l)
    (hp : ∀ x ∈ l, (p x = true ↔ x = b)) : l.filter p = [b] := by
  induction l with
  | nil => cases hb
  | cons x xs ih =>
    simp only [List.map_cons, List.nodup_cons] at hnd
    rcases List.mem_cons.mp hb with rfl | hbxs
    · have hpx : p b = true := (hp b (List.mem_cons_self _ _)).mpr rfl
      rw [List.filter_cons_of_pos hpx]
      have hnil : xs.filter p = [] := by
        apply List.filter_eq_nil_iff.mpr
        intro y hy hpy
        have hyx : y = b := (hp y (List.mem_cons_of_mem _ hy)).mp hpy
        subst hyx
        exact hnd.1 (List.mem_map_of_mem f hy)
      rw [hnil]
    · have hpx : p x = false := by
        cases hcase : p x with
        | false => rfl
        | true =>
          have hxb : x = b := (hp x (List.mem_cons_self _ _)).mp hcase
          subst hxb
          exact absurd (List.mem_map_of_mem f hbxs) hnd.1
      rw [List.filter_cons_of_neg (by simp [hpx])]
      exact ih hnd.2 hbxs (fun y hy => hp y (List.mem_cons_of_mem _ hy))

/-- C2: latest wins — when all bronze rows have distinct ids and `b` is
the strictly most recent row for source id `sid`, the silver bronze-load
step restricted to that id selects exactly `b`: the silver run then
processes, for that id, only the row with the maximum `synced_at`, so the
resulting silver row reflects only its fields. -/
theorem c2_latest_wins (bronze : List BronzeRow) (b : BronzeRow) (sid : Int)
    (hnd : (bronze.map BronzeRow.id).Nodup)
    (hb : b ∈ bronze) (hsid : b.source_id = some sid)
    (hmax : ∀ b2 ∈ bronze, b2.source_id = some sid → b2 ≠ b → b2.synced_at < b.synced_at) :
    (_load_latest_bronze bronze).filter (fun r => r.source_id == some sid) = [b] := by
  have hbm : sqlEqOpt b.source_id (some sid) = true := (sqlEqOpt_true_iff _ _).mpr hsid
  have hub : ∀ t ∈ bronze, sqlEqOpt t.source_id (some sid) = true → t.synced_at ≤ b.synced_at := by
    intro t ht htm
    by_cases htb : t = b
    · subst htb; exact Nat.le_refl _
    · exact Nat.le_of_lt (hmax t ht ((sqlEqOpt_true_iff _ _).mp htm) htb)
  have hmaxv : maxSyncedFor bronze sid = some b.synced_at :=
    maxSyncedFor_eq bronze sid b.synced_at ⟨b, hb, hbm, rfl⟩ hub
  unfold _load_latest_bronze
  rw [List.filter_filter]
  apply filter_eq_singleton_of_unique bronze _ BronzeRow.id b hnd hb
  intro x hx
  constructor
  · intro hpx
    rw [Bool.and_eq_true] at hpx
    obtain ⟨hq, hl⟩ := hpx
    have hxsid : x.source_id = some sid := by simpa using hq
    have hl2 : (maxSyncedFor bronze sid == some x.synced_at) = true := by
      rw [hxsid] at hl
      exact hl
    rw [hmaxv] at hl2
    have hsync : b.synced_at = x.synced_at := by simpa using hl2
    by_contra hxb
    have := hmax x hx hxsid hxb
    omega
  · intro hxb
    rw [hxb, Bool.and_eq_true]
    refine ⟨by simpa using hsid, ?_⟩
    rw [hsid]
    exact (by rw [hmaxv]; simp : (maxSyncedFor bronze sid == some b.synced_at) = true)

/-- C2 witness: two captures of natural id 7 — the load step selects
exactly the one with the greater `synced_at`. -/
theorem c2_latest_wins_witness :
    (_load_latest_bronze c2Bronze).filter (fun r => r.source_id == some 7) = [c2RowNew] :=
  c2_latest_wins c2Bronze c2RowNew 7 (by decide) (by decide) (by decide) (by decide)

/-- The silver products loop never issues an Error Record insert: its
`except` arm only counts and logs locally. -/
theorem silver_fold_no_error_insert (run : String) :
    ∀ (rows : List (Nat × Payload)) (acc : SilverRunState),
      acc.effects.all (fun e => !isSyncErrorInsert e) = true →
      ((rows.foldl (silverStep run) acc).effects.all (fun e => !isSyncErrorInsert e)) = true := by
  intro rows
  induction rows with
  | nil => intro acc h; exact h
  | cons r rest ih =>
    intro acc h
    simp only [List.foldl_cons]
    apply ih
    unfold silverStep
    cases ht : transform_product r.2 r.1 run with
    | error e => exact h
    | ok p =>
      show ((if skipGlobalProduct p = true then acc else { acc with ok := acc.ok + 1, effects := acc.effects ++ [SilverSqlEffect.mergeProduct p] }).effects.all fun e => !isSyncErrorInsert e) = true
      by_cases hs : skipGlobalProduct p = true
      · rw [if_pos hs]
        exact h
      · rw [if_neg hs]
        simp only [List.all_append, h, Bool.true_and, List.all_cons, List.all_nil,
          Bool.and_true]
        rfl

/-- A failing transform only bumps the error counter. -/
theorem silverStep_error (run : String) (acc : SilverRunState) (r : Nat × Payload)
    (h : transformFailed run r = true) :
    silverStep run acc r = { acc with errors := acc.errors + 1 } := by
  unfold transformFailed at h
  unfold silverStep
  cases ht : transform_product r.2 r.1 run with
  | error e => rfl
  | ok p =>
    rw [ht] at h
    exact Bool.noConfusion (show false = true from h)

/-- Over rows that all transform successfully and pass the skip filter,
the loop counts one write per row and no error. -/
theorem silver_fold_all_ok (run : String) :
    ∀ (rows : List (Nat × Payload)) (acc : SilverRunState),
      (∀ r ∈ rows, transformFailed run r = false ∧ transformSkipped run r = false) →
      (rows.foldl (silverStep run) acc).ok = acc.ok + rows.length ∧
      (rows.foldl (silverStep run) acc).errors = acc.errors := by
  intro rows
  induction rows with
  | nil => intro acc h; simp
  | cons r rest ih =>
    intro acc h
    have hr := h r (List.mem_cons_self _ _)
    simp only [List.foldl_cons]
    cases ht : transform_product r.2 r.1 run with
    | error e =>
      have : transformFailed run r = true := by unfold transformFailed; rw [ht]
      rw [this] at hr
      cases hr.1
    | ok p =>
      have hskip : skipGlobalProduct p = false := by
        have h2 := hr.2
        unfold transformSkipped at h2
        rw [ht] at h2
        exact h2
      have hstep : silverStep run acc r =
          { acc with ok := acc.ok + 1, effects := acc.effects ++ [.mergeProduct p] } := by
        unfold silverStep
        rw [ht]
        show (if skipGlobalProduct p = true then acc else { acc with ok := acc.ok + 1, effects := acc.effects ++ [SilverSqlEffect.mergeProduct p] }) = { acc with ok := acc.ok + 1, effects := acc.effects ++ [SilverSqlEffect.mergeProduct p] }
        rw [if_neg (by simp [hskip])]
      rw [hstep]
      have hih := ih { acc with ok := acc.ok + 1, effects := acc.effects ++ [.mergeProduct p] }
        (fun y hy => h y (List.mem_cons_of_mem _ hy))
      refine ⟨?_, ?_⟩
      · rw [hih.1]
        simp only [List.length_cons]
        omega
      · rw [hih.2]

/-- C3 (amended): partial-failure isolation — on N selected bronze rows of
which exactly one fails to transform and every other transforms to a
non-beyond-Global product, the silver products run completes (it is a
total function of the rows), returns written = N-1 and errors = 1, and
records the failure only in the local warning log: `log_error` is never
invoked, so no Error Record row is inserted by any silver products run. -/
theorem c3_partial_failure_isolation (run : String) (xs ys : List (Nat × Payload))
    (bad : Nat × Payload)
    (hbad : transformFailed run bad = true)
    (hok : ∀ r ∈ xs ++ ys, transformFailed run r = false ∧ transformSkipped run r = false) :
    (silver_products_run run (xs ++ bad :: ys)).ok = xs.length + ys.length ∧
    (silver_products_run run (xs ++ bad :: ys)).errors = 1 ∧
    ∀ rows : List (Nat × Payload),
      (silver_products_run run rows).effects.all (fun e => !isSyncErrorInsert e) = true := by
  have hxs : ∀ r ∈ xs, transformFailed run r = false ∧ transformSkipped run r = false :=
    fun r hr => hok r (List.mem_append_left _ hr)
  have hys : ∀ r ∈ ys, transformFailed run r = false ∧ transformSkipped run r = false :=
    fun r hr => hok r (List.mem_append_right _ hr)
  have h1 := silver_fold_all_ok run xs ⟨0, 0, []⟩ hxs
  have hmid := silverStep_error run (xs.foldl (silverStep run) ⟨0, 0, []⟩) bad hbad
  have h2 := silver_fold_all_ok run ys
    { xs.foldl (silverStep run) ⟨0, 0, []⟩ with
        errors := (xs.foldl (silverStep run) ⟨0, 0, []⟩).errors + 1 } hys
  have hrw : silver_products_run run (xs ++ bad :: ys) =
      ys.foldl (silverStep run)
        { xs.foldl (silverStep run) ⟨0, 0, []⟩ with
            errors := (xs.foldl (silverStep run) ⟨0, 0, []⟩).errors + 1 } := by
    unfold silver_products_run
    rw [List.foldl_append, List.foldl_cons, hmid]
  refine ⟨?_, ?_, ?_⟩
  · rw [hrw]
    have e1 := h2.1
    have e2 : ({ xs.foldl (silverStep run) ⟨0, 0, []⟩ with errors := (xs.foldl (silverStep run) ⟨0, 0, []⟩).errors + 1 } : SilverRunState).ok = (xs.foldl (silverStep run) ⟨0, 0, []⟩).ok := rfl
    have e3 := h1.1
    have e4 : (⟨0, 0, []⟩ : SilverRunState).ok = 0 := rfl
    omega
  · rw [hrw]
    have e1 := h2.2
    have e2 : ({ xs.foldl (silverStep run) ⟨0, 0, []⟩ with errors := (xs.foldl (silverStep run) ⟨0, 0, []⟩).errors + 1 } : SilverRunState).errors = (xs.foldl (silverStep run) ⟨0, 0, []⟩).errors + 1 := rfl
    have e3 := h1.2
    have e4 : (⟨0, 0, []⟩ : SilverRunState).errors = 0 := rfl
    omega
  · intro rows
    exact silver_fold_no_error_insert run rows ⟨0, 0, []⟩ rfl

/-- C3 (amended) witness: one good row and one malformed row — the run
returns written = 1, errors = 1, and its effects hold no Error Record
insert. -/
theorem c3_partial_failure_isolation_witness :
    (silver_products_run "run1" ([c3RowGood] ++ c3RowBad :: [])).ok = 1 ∧
    (silver_products_run "run1" ([c3RowGood] ++ c3RowBad :: [])).errors = 1 ∧
    (silver_products_run "run1" c3Rows).effects.all (fun e => !isSyncErrorInsert e) = true := by
  have h := c3_partial_failure_isolation "run1" [c3RowGood] [] c3RowBad (by decide)
    (by intro r hr; simp only [List.append_nil] at hr; rw [List.mem_singleton] at hr;
        subst hr; exact ⟨by decide, by decide⟩)
  exact ⟨h.1, h.2.1, h.2.2 c3Rows⟩

/-- C3 counterexample: on the three fixture rows (one malformed, one
beyond-Global) the run returns written = 1, not N-1 = 2, and issues no
Error Record insert at all — `log_error` is never called — contradicting
the claim at this input. -/
theorem c3_log_error_counterexample :
    (silver_products_run "run1" c3Rows).ok = 1 ∧
    (silver_products_run "run1" c3Rows).errors = 1 ∧
    c3Rows.length = 3 ∧
    (silver_products_run "run1" c3Rows).effects.filter isSyncErrorInsert = [] := by
  decide

/-- The custom-size scan succeeds on any list of dict items. -/
theorem customSizeScan_ok (xs : List Val)
    (h : ∀ x ∈ xs, ∃ fs, x = Val.vdict fs) :
    ∃ v, customSizeScan xs = .ok v := by
  induction xs with
  | nil => exact ⟨.vnull, rfl⟩
  | cons x rest ih =>
    obtain ⟨fs, hfs⟩ := h x (List.mem_cons_self _ _)
    subst hfs
    unfold customSizeScan
    show ∃ v, (if (pyGet fs "Name" == Val.vstr "Nexudus.FloorPlan.Size") = true then match dictGet fs "Value" with | none => Except.ok Val.vnull | some w => Except.ok ((pyFloat? w).getD Val.vnull) else customSizeScan rest) = Except.ok v
    by_cases hn : (pyGet fs "Name" == Val.vstr "Nexudus.FloorPlan.Size") = true
    · rw [if_pos hn]
      cases hv : dictGet fs "Value" with
      | none => exact ⟨.vnull, rfl⟩
      | some w => exact ⟨(pyFloat? w).getD .vnull, rfl⟩
    · rw [if_neg hn]
      exact ih (fun y hy => h y (List.mem_cons_of_mem _ hy))

/-- `_extract_custom_size` succeeds on every payload whose `CustomFields`
has the well-formed shape. -/
theorem extract_custom_size_ok (raw : Payload) (h : customFieldsOk raw) :
    ∃ v, _extract_custom_size raw = .ok v := by
  unfold _extract_custom_size
  unfold customFieldsOk at h
  cases hcf : pyGet raw "CustomFields" with
  | vdict custom =>
    rw [hcf] at h
    have h2 : pyTruthy (pyGet custom "Data") = false ∨
        ∃ xs, pyGet custom "Data" = Val.vlist xs ∧ ∀ x ∈ xs, ∃ fs, x = Val.vdict fs := h
    rcases h2 with hfalse | ⟨xs, hxs, hall⟩
    · refine ⟨.vnull, ?_⟩
      show (if pyTruthy (pyGet custom "Data") = true then _ else Except.ok Val.vnull) =
        Except.ok Val.vnull
      rw [if_neg (by simp [hfalse])]
    · show ∃ v, (if pyTruthy (pyGet custom "Data") = true then _ else Except.ok Val.vnull) =
        Except.ok v
      rw [hxs]
      by_cases ht : pyTruthy (Val.vlist xs) = true
      · rw [if_pos ht]
        exact customSizeScan_ok xs hall
      · rw [if_neg ht]
        exact ⟨.vnull, rfl⟩
  | vnull => exact ⟨.vnull, rfl⟩
  | vbool b => exact ⟨.vnull, rfl⟩
  | vint n => exact ⟨.vnull, rfl⟩
  | vstr s => exact ⟨.vnull, rfl⟩
  | vlist xs => exact ⟨.vnull, rfl⟩

/-- `_strip_html` succeeds on any falsy-or-string value. -/
theorem strip_html_ok (v : Val) (h : pyTruthy v = false ∨ ∃ s, v = Val.vstr s) :
    ∃ r, _strip_html v = .ok r := by
  unfold _strip_html
  rcases h with hf | ⟨s, rfl⟩
  · refine ⟨.vnull, ?_⟩
    rw [if_pos (by simp [hf])]
  · by_cases ht : pyTruthy (Val.vstr s) = true
    · refine ⟨if stripHtmlString s == "" then Val.vnull else Val.vstr (stripHtmlString s), ?_⟩
      rw [if_neg (by simp [ht])]
    · refine ⟨.vnull, ?_⟩
      rw [if_pos (by simp at ht ⊢; simp [ht])]

/-- C9 (amended): transformer totality holds except for the directly
subscripted keys and two malformed-shape escapes — on every raw payload
that carries the keys the transformer subscripts (`Id` for products,
locations and contracts; `Id` and `BusinessId` for extra services;
resources subscript nothing), whose `CustomFields.Data`, when truthy
under a dict `CustomFields`, is a list of dicts (products), and whose
`AboutUs`/`ShortIntroduction` are falsy or strings (locations), every one
of the five entity transformers returns a typed row (or its documented
skip value) without raising; all other absent or malformed fields are
defensively coerced to null by the total helpers. -/
theorem c9_transformer_totality (raw : Payload) (b : Nat) (s : String)
    (hid : ∃ v, dictGet raw "Id" = some v)
    (hcf : customFieldsOk raw)
    (hab : contentFieldOk raw "AboutUs")
    (hsi : contentFieldOk raw "ShortIntroduction")
    (hbus : ∃ v, dictGet raw "BusinessId" = some v) :
    (∃ p, transform_product raw b s = Except.ok p) ∧
    (∃ lo, transform_location raw b s = Except.ok lo) ∧
    (∃ c, transform_contract raw b s = Except.ok c) ∧
    (∃ e, transform_extra_service raw b s = Except.ok e) ∧
    (∃ o, transform_resource raw b s = Except.ok o) := by
  obtain ⟨v, hv⟩ := hid
  obtain ⟨w, hw⟩ := hbus
  obtain ⟨cv, hcv⟩ := extract_custom_size_ok raw hcf
  obtain ⟨d1, hd1⟩ := strip_html_ok (pyGet raw "AboutUs") hab
  obtain ⟨d2, hd2⟩ := strip_html_ok (pyGet raw "ShortIntroduction") hsi
  refine ⟨?_, ?_, ?_, ?_, ?_⟩
  · unfold transform_product
    rw [hv, hcv]
    exact ⟨_, rfl⟩
  · by_cases hexc : excludedSourceId (pyGet raw "Id") = true
    · exact ⟨none, by unfold transform_location; rw [if_pos hexc]⟩
    · unfold transform_location
      rw [if_neg hexc, hv, hd1, hd2]
      exact ⟨_, rfl⟩
  · unfold transform_contract
    rw [hv]
    exact ⟨_, rfl⟩
  · unfold transform_extra_service
    rw [hv, hw]
    exact ⟨_, rfl⟩
  · unfold transform_resource
    by_cases hr : (!pyTruthy (pyGet raw "Id")) = true
    · rw [if_pos hr]
      exact ⟨none, rfl⟩
    · rw [if_neg hr]
      exact ⟨_, rfl⟩

/-- C9 (amended) witness: a minimal payload carrying `Id` and
`BusinessId` transforms on all five entity paths. -/
theorem c9_transformer_totality_witness :
    (∃ p, transform_product [("Id", Val.vint 1), ("BusinessId", Val.vint 2)] 0 "r" =
      Except.ok p) ∧
    (∃ lo, transform_location [("Id", Val.vint 1), ("BusinessId", Val.vint 2)] 0 "r" =
      Except.ok lo) ∧
    (∃ c, transform_contract [("Id", Val.vint 1), ("BusinessId", Val.vint 2)] 0 "r" =
      Except.ok c) ∧
    (∃ e, transform_extra_service [("Id", Val.vint 1), ("BusinessId", Val.vint 2)] 0 "r" =
      Except.ok e) ∧
    (∃ o, transform_resource [("Id", Val.vint 1), ("BusinessId", Val.vint 2)] 0 "r" =
      Except.ok o) :=
  c9_transformer_totality [("Id", Val.vint 1), ("BusinessId", Val.vint 2)] 0 "r"
    ⟨Val.vint 1, rfl⟩ trivial (Or.inl rfl) (Or.inl rfl) ⟨Val.vint 2, rfl⟩

/-- C9 counterexample: the empty payload — no `Id` key — makes the
product and location transformers raise `KeyError`, and the payload
carrying only `Id` makes the extra-services transformer raise `KeyError`
on its second subscripted key `BusinessId`, so the transformers are not
total on arbitrary payloads. -/
theorem c9_totality_counterexample :
    transform_product [] 0 "r" = Except.error "KeyError: Id" ∧
    transform_location [] 0 "r" = Except.error "KeyError: Id" ∧
    transform_extra_service [("Id", Val.vint 1)] 0 "r" =
      Except.error "KeyError: BusinessId" :=
  ⟨rfl, rfl, rfl⟩

/-- One discovery step adds exactly the (location, resource) reference of
the product — when both ids are truthy — to the pair set, deduplicated. -/
theorem addRecord_pairs_mem (acc : List (Val × List Val)) (r : Payload) (lid rid : Val) :
    (lid, rid) ∈ all_resource_ids (addResourceRecord acc r) ↔
      ((lid, rid) ∈ all_resource_ids acc ∨
        (pyGet r "FloorPlanBusinessId" = lid ∧ pyGet r "ResourceId" = rid ∧
         pyTruthy rid = true ∧ pyTruthy lid = true)) := by
  unfold addResourceRecord
  by_cases hc : (pyTruthy (pyGet r "ResourceId") && pyTruthy (pyGet r "FloorPlanBusinessId")) = true
  · rw [if_pos hc]
    rw [Bool.and_eq_true] at hc
    by_cases hk : (acc.any (fun p => p.1 == pyGet r "FloorPlanBusinessId")) = true
    · rw [if_pos hk]
      constructor
      · intro hm
        unfold all_resource_ids at hm
        rw [List.mem_flatMap] at hm
        obtain ⟨q, hq, hpair⟩ := hm
        rw [List.mem_map] at hq
        obtain ⟨p, hp, rfl⟩ := hq
        by_cases hpl : (p.1 == pyGet r "FloorPlanBusinessId") = true
        · rw [if_pos hpl] at hpair
          rw [List.mem_map] at hpair
          obtain ⟨y, hy, heq⟩ := hpair
          injection heq with he1 he2
          by_cases hcont : (p.2.contains (pyGet r "ResourceId")) = true
          · rw [if_pos hcont] at hy
            left
            unfold all_resource_ids
            rw [List.mem_flatMap]
            exact ⟨p, hp, List.mem_map.mpr ⟨y, hy, by rw [he1, he2]⟩⟩
          · rw [if_neg hcont] at hy
            rw [List.mem_append] at hy
            rcases hy with hy | hy
            · left
              unfold all_resource_ids
              rw [List.mem_flatMap]
              exact ⟨p, hp, List.mem_map.mpr ⟨y, hy, by rw [he1, he2]⟩⟩
            · rw [List.mem_singleton] at hy
              right
              have hploc : p.1 = pyGet r "FloorPlanBusinessId" := by simpa using hpl
              refine ⟨by rw [← hploc, he1], by rw [← hy, he2], ?_, ?_⟩
              · rw [← he2, hy]
                exact hc.1
              · rw [← he1, hploc]
                exact hc.2
        · rw [if_neg hpl] at hpair
          left
          unfold all_resource_ids
          rw [List.mem_flatMap]
          exact ⟨p, hp, hpair⟩
      · intro hm
        rcases hm with hold | ⟨hl, hr, htr, htl⟩
        · unfold all_resource_ids at hold ⊢
          rw [List.mem_flatMap] at hold ⊢
          obtain ⟨p, hp, hpair⟩ := hold
          refine ⟨if (p.1 == pyGet r "FloorPlanBusinessId") = true then (p.1, if p.2.contains (pyGet r "ResourceId") then p.2 else p.2 ++ [pyGet r "ResourceId"]) else p, List.mem_map_of_mem _ hp, ?_⟩
          by_cases hpl : (p.1 == pyGet r "FloorPlanBusinessId") = true
          · rw [if_pos hpl]
            by_cases hcont : (p.2.contains (pyGet r "ResourceId")) = true
            · rw [if_pos hcont]
              exact hpair
            · rw [if_neg hcont]
              rw [List.map_append]
              exact List.mem_append_left _ hpair
          · rw [if_neg hpl]
            exact hpair
        · rw [List.any_eq_true] at hk
          obtain ⟨p, hp, hpb⟩ := hk
          have hploc : p.1 = pyGet r "FloorPlanBusinessId" := by simpa using hpb
          unfold all_resource_ids
          rw [List.mem_flatMap]
          refine ⟨(p.1, if p.2.contains (pyGet r "ResourceId") then p.2 else p.2 ++ [pyGet r "ResourceId"]), ?_, ?_⟩
          · exact List.mem_map.mpr ⟨p, hp, by rw [if_pos hpb]⟩
          · have hrn : rid ∈ (if p.2.contains (pyGet r "ResourceId") then p.2 else p.2 ++ [pyGet r "ResourceId"]) := by
              by_cases hcont : (p.2.contains (pyGet r "ResourceId")) = true
              · rw [if_pos hcont]
                rw [← hr]
                simpa using hcont
              · rw [if_neg hcont]
                rw [← hr]
                exact List.mem_append_right _ (List.mem_singleton.mpr rfl)
            exact List.mem_map.mpr ⟨rid, hrn, by rw [hploc, hl]⟩
    · rw [if_neg hk]
      unfold all_resource_ids
      rw [List.flatMap_append, List.mem_append]
      constructor
      · rintro (hold | hnew)
        · left
          exact hold
        · right
          simp only [List.flatMap_cons, List.map_cons, List.map_nil, List.flatMap_nil,
            List.append_nil, List.mem_singleton] at hnew
          injection hnew with he1 he2
          exact ⟨he1.symm, he2.symm, he2 ▸ hc.1, he1 ▸ hc.2⟩
      · rintro (hold | ⟨hl, hr, htr, htl⟩)
        · left
          exact hold
        · right
          simp only [List.flatMap_cons, List.map_cons, List.map_nil, List.flatMap_nil,
            List.append_nil, List.mem_singleton]
          rw [hl, hr]
  · rw [if_neg hc]
    constructor
    · exact Or.inl
    · rintro (hold | ⟨hl, hr, htr, htl⟩)
      · exact hold
      · exfalso
        apply hc
        rw [Bool.and_eq_true]
        exact ⟨hr ▸ htr, hl ▸ htl⟩

/-- The discovered pair set over a product list is exactly the set of
truthy (location, resource) references of the products. -/
theorem pairs_foldl_mem (lid rid : Val) :
    ∀ (records : List Payload) (acc : List (Val × List Val)),
      ((lid, rid) ∈ all_resource_ids (records.foldl addResourceRecord acc) ↔
        ((lid, rid) ∈ all_resource_ids acc ∨
          ∃ r ∈ records, pyGet r "FloorPlanBusinessId" = lid ∧ pyGet r "ResourceId" = rid ∧
            pyTruthy rid = true ∧ pyTruthy lid = true)) := by
  intro records
  induction records with
  | nil => intro acc; simp
  | cons r rest ih =>
    intro acc
    simp only [List.foldl_cons]
    rw [ih (addResourceRecord acc r), addRecord_pairs_mem]
    constructor
    · rintro ((hold | hc) | ⟨q, hq, hcq⟩)
      · exact Or.inl hold
      · exact Or.inr ⟨r, List.mem_cons_self _ _, hc⟩
      · exact Or.inr ⟨q, List.mem_cons_of_mem _ hq, hcq⟩
    · rintro (hold | ⟨q, hq, hcq⟩)
      · exact Or.inl (Or.inl hold)
      · rcases List.mem_cons.mp hq with heq | hqrest
        · exact Or.inl (Or.inr (heq ▸ hcq))
        · exact Or.inr ⟨q, hqrest, hcq⟩

/-- One discovery step preserves key distinctness and per-location list
distinctness. -/
theorem addRecord_invariant (acc : List (Val × List Val)) (r : Payload)
    (h1 : (acc.map Prod.fst).Nodup) (h2 : ∀ p ∈ acc, p.2.Nodup) :
    ((addResourceRecord acc r).map Prod.fst).Nodup ∧
    (∀ p ∈ addResourceRecord acc r, p.2.Nodup) := by
  unfold addResourceRecord
  by_cases hc : (pyTruthy (pyGet r "ResourceId") && pyTruthy (pyGet r "FloorPlanBusinessId")) = true
  · rw [if_pos hc]
    by_cases hk : (acc.any (fun p => p.1 == pyGet r "FloorPlanBusinessId")) = true
    · rw [if_pos hk]
      constructor
      · have hkeys : ((acc.map (fun p => if p.1 == pyGet r "FloorPlanBusinessId" then (p.1, if p.2.contains (pyGet r "ResourceId") then p.2 else p.2 ++ [pyGet r "ResourceId"]) else p)).map Prod.fst) = acc.map Prod.fst := by
          rw [List.map_map]
          apply List.map_congr_left
          intro p hp
          by_cases hpl : (p.1 == pyGet r "FloorPlanBusinessId") = true
          · simp only [Function.comp, if_pos hpl]
          · simp only [Function.comp, if_neg hpl]
        rw [hkeys]
        exact h1
      · intro p hp
        rw [List.mem_map] at hp
        obtain ⟨q, hq, rfl⟩ := hp
        by_cases hpl : (q.1 == pyGet r "FloorPlanBusinessId") = true
        · rw [if_pos hpl]
          by_cases hcont : (q.2.contains (pyGet r "ResourceId")) = true
          · rw [if_pos hcont]
            exact h2 q hq
          · rw [if_neg hcont]
            show (q.2 ++ [pyGet r "ResourceId"]).Nodup
            refine List.Nodup.append (h2 q hq) (List.nodup_singleton _) ?_
            rw [List.disjoint_singleton]
            intro hmem
            exact hcont (by simpa using hmem)
        · rw [if_neg hpl]
          exact h2 q hq
    · rw [if_neg hk]
      constructor
      · rw [List.map_append]
        refine List.Nodup.append h1 (by simp) ?_
        simp only [List.map_cons, List.map_nil, List.disjoint_singleton]
        intro hmem
        rw [List.mem_map] at hmem
        obtain ⟨p, hp, hpeq⟩ := hmem
        apply hk
        rw [List.any_eq_true]
        exact ⟨p, hp, by simp [hpeq]⟩
      · intro p hp
        rw [List.mem_append] at hp
        rcases hp with hp | hp
        · exact h2 p hp
        · rw [List.mem_singleton] at hp
          rw [hp]
          exact List.nodup_singleton _
  · rw [if_neg hc]
    exact ⟨h1, h2⟩

/-- The discovery fold maintains the distinctness invariant from the
empty dict. -/
theorem discover_invariant :
    ∀ (records : List Payload) (acc : List (Val × List Val)),
      (acc.map Prod.fst).Nodup → (∀ p ∈ acc, p.2.Nodup) →
      ((records.foldl addResourceRecord acc).map Prod.fst).Nodup ∧
      (∀ p ∈ records.foldl addResourceRecord acc, p.2.Nodup) := by
  intro records
  induction records with
  | nil => intro acc h1 h2; exact ⟨h1, h2⟩
  | cons r rest ih =>
    intro acc h1 h2
    simp only [List.foldl_cons]
    have hstep := addRecord_invariant acc r h1 h2
    exact ih (addResourceRecord acc r) hstep.1 hstep.2

/-- Every pair's location belongs to the dict keys. -/
theorem pairs_fst_mem (m : List (Val × List Val)) (l r : Val)
    (hm : (l, r) ∈ all_resource_ids m) : l ∈ m.map Prod.fst := by
  unfold all_resource_ids at hm
  rw [List.mem_flatMap] at hm
  obtain ⟨p, hp, hpair⟩ := hm
  rw [List.mem_map] at hpair
  obtain ⟨y, hy, heq⟩ := hpair
  injection heq with he1 he2
  exact he1 ▸ List.mem_map_of_mem Prod.fst hp

/-- Flattening a dict with distinct keys and distinct per-key lists gives
a duplicate-free pair list. -/
theorem pairs_nodup : ∀ (m : List (Val × List Val)),
    (m.map Prod.fst).Nodup → (∀ p ∈ m, p.2.Nodup) → (all_resource_ids m).Nodup := by
  intro m
  induction m with
  | nil => intro h1 h2; simp [all_resource_ids]
  | cons p rest ih =>
    intro h1 h2
    simp only [List.map_cons, List.nodup_cons] at h1
    unfold all_resource_ids
    rw [List.flatMap_cons]
    refine List.Nodup.append ?_ ?_ ?_
    · refine List.Nodup.map ?_ (h2 p (List.mem_cons_self _ _))
      intro a b hab
      injection hab
    · exact ih h1.2 (fun q hq => h2 q (List.mem_cons_of_mem _ hq))
    · intro x hx1 hx2
      rw [List.mem_map] at hx1
      obtain ⟨y, hy, rfl⟩ := hx1
      exact h1.1 (pairs_fst_mem rest p.1 y hx2)

/-- C8: resource discovery — the fetch pair list is exactly the set of
truthy (FloorPlanBusinessId, ResourceId) references of the fetched
products, grouped by location with in-list deduplication (the flattened
list is duplicate-free); with no discovered pair the resource step
returns before creating a run or issuing any fetch; and on the fixture
of three products with one duplicated reference it issues exactly the two
unique fetches, grouped by location. -/
theorem c8_resource_discovery :
    (∀ (records : List Payload) (lid rid : Val),
      ((lid, rid) ∈ all_resource_ids (resource_ids_by_location records) ↔
        ∃ r ∈ records, pyGet r "FloorPlanBusinessId" = lid ∧ pyGet r "ResourceId" = rid ∧
          pyTruthy rid = true ∧ pyTruthy lid = true)) ∧
    (∀ records : List Payload, (all_resource_ids (resource_ids_by_location records)).Nodup) ∧
    (∀ fetch : Val × Val → FetchResult, sync_resources fetch [] =
      { run_created := false, rows_read := 0, fetch_paths := [], rows_skipped := 0,
        rows_written := 0 }) ∧
    all_resource_ids (resource_ids_by_location c8Products) =
      [(.vint 10, .vint 100), (.vint 20, .vint 200)] ∧
    (sync_resources c8Fetch (all_resource_ids (resource_ids_by_location c8Products))).fetch_paths =
      ["spaces/resources/100", "spaces/resources/200"] := by
  refine ⟨?_, ?_, fun fetch => rfl, by decide, by decide⟩
  · intro records lid rid
    unfold resource_ids_by_location
    rw [pairs_foldl_mem lid rid records []]
    simp [all_resource_ids]
  · intro records
    unfold resource_ids_by_location
    have h := discover_invariant records [] (by simp) (by intro p hp; cases hp)
    exact pairs_nodup _ h.1 h.2

/-- C8 witness: the fixture and empty-discovery evaluations through the
theorem. -/
theorem c8_resource_discovery_witness :
    ((.vint 10, .vint 100) ∈ all_resource_ids (resource_ids_by_location c8Products) ↔
      ∃ r ∈ c8Products, pyGet r "FloorPlanBusinessId" = .vint 10 ∧
        pyGet r "ResourceId" = .vint 100 ∧ pyTruthy (.vint 100) = true ∧
        pyTruthy (.vint 10) = true) ∧
    (all_resource_ids (resource_ids_by_location c8Products)).Nodup ∧
    sync_resources c8Fetch [] =
      { run_created := false, rows_read := 0, fetch_paths := [], rows_skipped := 0,
        rows_written := 0 } :=
  ⟨c8_resource_discovery.1 c8Products (.vint 10) (.vint 100),
   c8_resource_discovery.2.1 c8Products,
   c8_resource_discovery.2.2.1 c8Fetch⟩

/-- C4 witness: a failing body over an empty table yields the single
`failed` record with the message and re-raises. -/
theorem c4_run_tracker_finalization_witness :
    (runTrackerScope "rid" "nexudus" "locations" "bronze" "cron" none 5 9
        (⟨10, 8, 1⟩, some "boom") []).1.filter (fun r => r.id == "rid") =
      [{ id := "rid", source_name := "nexudus", entity := "locations", layer := "bronze",
         status := "failed", started_at := 5, finished_at := some 9,
         rows_read := 10, rows_written := 8, rows_skipped := 1,
         error_message := some "boom", triggered_by := "cron", metadata := none }] ∧
    (runTrackerScope "rid" "nexudus" "locations" "bronze" "cron" none 5 9
        (⟨10, 8, 1⟩, some "boom") []).2 = some "boom" := by
  have h := c4_run_tracker_finalization "rid" "nexudus" "locations" "bronze" "cron" none 5 9
    (⟨10, 8, 1⟩, some "boom") [] (by intro r hr; cases hr)
  exact ⟨h.1, h.2.2⟩

end Infinitspace
